import Mathlib

/-!
# Verification of the SC-DOC-APP backend LibGen pipeline

Shallow embedding of the repository's multi-mirror federated search,
extraction and import pipeline (`src/unnamed/part_007`, the newer
`LibGenService` revision that the spec adopts, and
`src/src/utils/seeder.ts` for the session store and import handler).

HTML documents are abstracted at the level the code consumes them through
cheerio: a document is a list of result rows, a row is the list of its
`td` cells, and a cell is summarized by the accessors the code calls on
it: `.text()`, `.html() || ''`, `.find('a').text()` and
`.find('a').attr('href')` (each cell is modelled as carrying at most one
anchor).  All regular-expression heuristics of the code are translated
into explicit leftmost-match scanners over the character list, mirroring
JavaScript regex semantics for the patterns as they appear in the source.
-/

namespace SCDoc

/-! ## JavaScript string primitives -/

/-- The whitespace characters recognised by JS `trim` / `\s` (ASCII part). -/
def isJsSpace (c : Char) : Bool :=
  c == ' ' || c == '\t' || c == '\n' || c == '\r' ||
  c == Char.ofNat 11 || c == Char.ofNat 12

def isDigitC (c : Char) : Bool := '0' ≤ c && c ≤ '9'

def lcChar (c : Char) : Char := c.toLower

/-- Hex digit, case-insensitive (`[a-f0-9]` under the `i` flag). -/
def isHexC (c : Char) : Bool :=
  isDigitC c || ('a' ≤ lcChar c && lcChar c ≤ 'f')

/-- JS regex word character (`\w`): letters, digits, underscore (ASCII). -/
def isWordC (c : Char) : Bool :=
  isDigitC c || ('a' ≤ lcChar c && lcChar c ≤ 'z') || c == '_'

/-- The single-quote and double-quote characters (avoids quote literals). -/
def squote : Char := Char.ofNat 39

def dquote : Char := Char.ofNat 34

def isQuoteC (c : Char) : Bool := c == squote || c == dquote

def trimChars (l : List Char) : List Char :=
  ((l.dropWhile isJsSpace).reverse.dropWhile isJsSpace).reverse

/-- JS `String.prototype.trim`. -/
def trimStr (s : String) : String := String.mk (trimChars s.toList)

/-- JS `String.prototype.toLowerCase` (ASCII-adequate). -/
def lowerStr (s : String) : String := String.mk (s.toList.map lcChar)

/-- Case-insensitive prefix test on character lists. -/
def startsWithCI : List Char → List Char → Bool
  | [], _ => true
  | _ :: _, [] => false
  | p :: ps, c :: cs => lcChar p == lcChar c && startsWithCI ps cs

/-- Case-sensitive prefix test on character lists. -/
def startsWithCS : List Char → List Char → Bool
  | [], _ => true
  | _ :: _, [] => false
  | p :: ps, c :: cs => p == c && startsWithCS ps cs

/-- JS `String.prototype.includes` (case-sensitive substring test). -/
def containsChars (pat : List Char) : List Char → Bool
  | [] => startsWithCS pat []
  | c :: cs => startsWithCS pat (c :: cs) || containsChars pat cs

def containsStr (s pat : String) : Bool := containsChars pat.toList s.toList

/-- Models `s.toLowerCase().includes(pat)` where `pat` is already lowercase. -/
def containsCI (s pat : String) : Bool :=
  containsChars pat.toList (s.toList.map lcChar)

/-- JS `String.prototype.startsWith`. -/
def jsStartsWith (s pat : String) : Bool := startsWithCS pat.toList s.toList

/-- Digits prefix (`\d+`, greedy). -/
def takeDigits (l : List Char) : List Char := l.takeWhile isDigitC

/-- Models `parseInt` with no radix argument: skip whitespace, optional sign,
`0x` prefix selects base 16, longest digit prefix, `none` for `NaN`. -/
def jsParseInt (s : String) : Option Int :=
  let l := s.toList.dropWhile isJsSpace
  let (sgn, l) : Int × List Char :=
    match l with
    | c :: rest =>
      if c == '-' then (-1, rest) else if c == '+' then (1, rest) else (1, l)
    | [] => (1, l)
  if startsWithCI ['0', 'x'] l then
    let ds := (l.drop 2).takeWhile isHexC
    if ds.isEmpty then none
    else some (sgn * (ds.foldl (fun a c => a * 16 + (Int.ofNat (lcChar c).toNat -
      (if isDigitC c then (48 : Int) else 87))) 0))
  else
    let ds := takeDigits l
    if ds.isEmpty then none
    else some (sgn * (ds.foldl (fun a c => a * 10 + (Int.ofNat c.toNat - 48)) 0))

/-! ## Leftmost-match scanners for the regexes in `parseSearchResults` -/

/-- Models `/md5=([a-f0-9]{32})/i` applied to a string: leftmost occurrence of
`md5=` (case-insensitive) followed by 32 hex characters; returns the
captured 32 characters. -/
def scanMd5 : List Char → Option String
  | [] => none
  | c :: rest =>
    if startsWithCI ['m', 'd', '5', '='] (c :: rest) then
      let cand := ((c :: rest).drop 4).take 32
      if cand.length == 32 && cand.all isHexC then some (String.mk cand)
      else scanMd5 rest
    else scanMd5 rest

/-- Models `/([a-f0-9]{32})/i`: leftmost run of 32 hex characters. -/
def scanHex32 : List Char → Option String
  | [] => none
  | c :: rest =>
    let cand := (c :: rest).take 32
    if cand.length == 32 && cand.all isHexC then some (String.mk cand)
    else scanHex32 rest

/-- Models `/[?&]id=(\d+)/i`: leftmost `?id=`/`&id=` followed by one or more
digits (greedy); returns the digits. -/
def scanIdParam : List Char → Option String
  | [] => none
  | c :: rest =>
    if (c == '?' || c == '&') && startsWithCI ['i', 'd', '='] rest then
      let ds := takeDigits (rest.drop 3)
      if ds.isEmpty then scanIdParam rest else some (String.mk ds)
    else scanIdParam rest

/-- Rightmost `[?&]id=(\d+)` inside a segment (used for the backtracking
`.*[?&]id=(\d+)` tail of the detail-link regex). -/
def lastIdParam : List Char → Option String
  | [] => none
  | c :: rest =>
    match lastIdParam rest with
    | some ds => some ds
    | none =>
      if (c == '?' || c == '&') && startsWithCI ['i', 'd', '='] rest then
        let ds := takeDigits (rest.drop 3)
        if ds.isEmpty then none else some (String.mk ds)
      else none

/-- The segment `.*` can span: characters up to the next line terminator. -/
def lineSegment (l : List Char) : List Char :=
  l.takeWhile (fun c => c != '\n' && c != '\r')

/-- Models `/(?:book\/index\.php|details).*[?&]id=(\d+)/i`: leftmost
`book/index.php` or `details`, then (greedy, same line) the rightmost
`[?&]id=` digit run. -/
def scanDetailId : List Char → Option String
  | [] => none
  | c :: rest =>
    let here :=
      if startsWithCI "book/index.php".toList (c :: rest) then
        some ((c :: rest).drop 14)
      else if startsWithCI "details".toList (c :: rest) then
        some ((c :: rest).drop 7)
      else none
    match here with
    | some tail =>
      match lastIdParam (lineSegment tail) with
      | some ds => some ds
      | none => scanDetailId rest
    | none => scanDetailId rest

/-- Models `/\/covers\/(\d+)\//i`: leftmost `/covers/` followed by digits and a
closing slash. -/
def scanCoversId : List Char → Option String
  | [] => none
  | c :: rest =>
    if startsWithCI "/covers/".toList (c :: rest) then
      let tail := (c :: rest).drop 8
      let ds := takeDigits tail
      if !ds.isEmpty && (tail.drop ds.length).head? == some '/' then
        some (String.mk ds)
      else scanCoversId rest
    else scanCoversId rest

/-- Tail of the key-value regexes: `["']?\s*[:=]\s*["']?(\d+)` — optional
quote, whitespace, `:` or `=`, whitespace, optional quote, digits. -/
def matchKeyValueTail (l : List Char) : Option String :=
  let l := match l with
    | c :: rest => if isQuoteC c then rest else l
    | [] => l
  let l := l.dropWhile isJsSpace
  match l with
  | c :: rest =>
    if c == ':' || c == '=' then
      let rest := rest.dropWhile isJsSpace
      let rest := match rest with
        | d :: r2 => if isQuoteC d then r2 else rest
        | [] => rest
      let ds := takeDigits rest
      if ds.isEmpty then none else some (String.mk ds)
    else none
  | [] => none

/-- Models `/(?:k₁|k₂|…)["']?\s*[:=]\s*["']?(\d+)["']?/i` for an ordered list of
literal keys: leftmost position where some key (tried in order) is
followed by a key-value tail. -/
def scanKeyNum (keys : List String) : List Char → Option String
  | [] => none
  | c :: rest =>
    match keys.findSome? (fun k =>
        if startsWithCI k.toList (c :: rest) then
          matchKeyValueTail ((c :: rest).drop k.length)
        else none) with
    | some ds => some ds
    | none => scanKeyNum keys rest

/-- Quoted value `["']([^"']+)["']`: required quote, one or more
non-quote characters (greedy), required closing quote. -/
def matchQuotedValue (l : List Char) : Option String :=
  match l with
  | c :: rest =>
    if isQuoteC c then
      let v := rest.takeWhile (fun d => !isQuoteC d)
      if !v.isEmpty && isQuoteC ((rest.drop v.length).headD ' ') then
        some (String.mk v)
      else none
    else none
  | [] => none

/-- Models `/cover_url["']?\s*[:=]\s*["']([^"']+)["']/i`. -/
def scanCoverUrlField : List Char → Option String
  | [] => none
  | c :: rest =>
    if startsWithCI "cover_url".toList (c :: rest) then
      let l := (c :: rest).drop 9
      let l := match l with
        | d :: r2 => if isQuoteC d then r2 else l
        | [] => l
      let l := l.dropWhile isJsSpace
      match l with
      | d :: r2 =>
        if d == ':' || d == '=' then
          match matchQuotedValue (r2.dropWhile isJsSpace) with
          | some v => some v
          | none => scanCoverUrlField rest
        else scanCoverUrlField rest
      | [] => scanCoverUrlField rest
    else scanCoverUrlField rest

/-- Rightmost `src=["']([^"']+)["']` in a segment (backtracking `[^>]*`
prefix of the img/thumb regexes). -/
def lastSrcValue : List Char → Option String
  | [] => none
  | c :: rest =>
    match lastSrcValue rest with
    | some v => some v
    | none =>
      if startsWithCI "src=".toList (c :: rest) then
        matchQuotedValue ((c :: rest).drop 4)
      else none

/-- Characters of the current tag: up to the next `>`. -/
def tagSegment (l : List Char) : List Char := l.takeWhile (fun c => c != '>')

/-- Models `/<img[^>]+src=["']([^"']+)["'][^>]*>/i`: leftmost `<img` whose tag
(closed by `>`) contains, at least one character later, a quoted `src`
value. -/
def scanImgSrc : List Char → Option String
  | [] => none
  | c :: rest =>
    if startsWithCI "<img".toList (c :: rest) then
      let tail := (c :: rest).drop 4
      let seg := tagSegment tail
      let closed := (tail.drop seg.length).head? == some '>'
      match seg with
      | _ :: segRest =>
        if closed then
          match lastSrcValue segRest with
          | some v => some v
          | none => scanImgSrc rest
        else scanImgSrc rest
      | [] => scanImgSrc rest
    else scanImgSrc rest

/-- Models `/(?:thumb|cover)[^>]*src=["']([^"']+)["']/i`: leftmost `thumb` or
`cover` followed, within the same tag, by a quoted `src` value. -/
def scanThumbSrc : List Char → Option String
  | [] => none
  | c :: rest =>
    let here :=
      if startsWithCI "thumb".toList (c :: rest) then some ((c :: rest).drop 5)
      else if startsWithCI "cover".toList (c :: rest) then some ((c :: rest).drop 5)
      else none
    match here with
    | some tail =>
      match lastSrcValue (tagSegment tail) with
      | some v => some v
      | none => scanThumbSrc rest
    | none => scanThumbSrc rest

/-- Models `/(\d{9}[\dX]|\d{13})/`: leftmost match, first alternative preferred
(nine digits then a digit or literal `X`), else thirteen digits. -/
def scanIsbn : List Char → Option String
  | [] => none
  | c :: rest =>
    let l := c :: rest
    let first10 := l.take 10
    if first10.length == 10 && (first10.take 9).all isDigitC &&
        (isDigitC (first10.getLastD ' ') || first10.getLastD ' ' == 'X') then
      some (String.mk first10)
    else
      let first13 := l.take 13
      if first13.length == 13 && first13.all isDigitC then
        some (String.mk first13)
      else scanIsbn rest

/-- Models `title.split(/[;,]|by\s+/i)[0]`: the prefix of the string before the
leftmost `;`, `,`, or `by` followed by whitespace. -/
def splitHeadAuthor (l : List Char) : List Char :=
  match l with
  | [] => []
  | c :: rest =>
    if c == ';' || c == ',' then []
    else if startsWithCI ['b', 'y'] (c :: rest) && isJsSpace ((rest.drop 1).headD 'x') then []
    else c :: splitHeadAuthor rest

/-- Models `/^(\d+)$/`: the whole string is one or more digits. -/
def allDigits (s : String) : Bool := !s.toList.isEmpty && s.toList.all isDigitC

/-- Models `x || undefined` on strings. -/
def strOpt (s : String) : Option String := if s == "" then none else some s

/-! ## Data model -/

/-- One `td` cell as the parser reads it through cheerio: raw text, inner
HTML (`.html() || ''`), the text of its anchors and the `href` of its
first anchor (at most one anchor per cell is modelled). -/
structure Cell where
  text : String := ""
  html : String := ""
  aText : String := ""
  aHref : Option String := none
deriving DecidableEq

/-- Models `cells.eq(i)` — out-of-range yields an empty selection, whose `.text()`
is `''`, `.html()` is `null` (the code coalesces it to `''`) and
`.attr('href')` is `undefined`. -/
def cellAt (cells : List Cell) (i : Nat) : Cell := cells.getD i {}

/-- A result row is its list of `td` cells. -/
abbrev Row := List Cell

/-- The normalized candidate record produced by `parseSearchResults`
(interface `LibGenBook` in `part_007`). -/
structure LibGenBook where
  id : String := ""
  libgen_id : String := ""
  title : String := ""
  author : String := ""
  publisher : Option String := none
  year : Option String := none
  pages : Option String := none
  language : Option String := none
  filesize : Option String := none
  extension : String := ""
  md5 : Option String := none
  isbn : Option String := none
  coverUrl : Option String := none
deriving DecidableEq

/-! ## Row extraction: libgen.is / libgen.st family

Direct translation of the `table.c tr` branch of `parseSearchResults`
(`part_007` lines 341–502). -/

/-- Book ID methods 1–5 of the libgen.is branch, in source order. -/
def bookIdIs (cells : List Cell) (downloadLink : Option String) : String :=
  let m1 := downloadLink.bind (fun l => scanIdParam l.toList)
  match m1 with
  | some v => v
  | none =>
    let firstCellText := trimStr (cellAt cells 0).text
    if allDigits firstCellText then firstCellText
    else
      match cells.findSome? (fun cell => scanDetailId cell.html.toList) with
      | some v => v
      | none =>
        match cells.findSome? (fun cell => scanCoversId cell.html.toList) with
        | some v => v
        | none =>
          match cells.findSome? (fun cell => scanIdParam cell.html.toList) with
          | some v => v
          | none => ""

/-- LibGen ID extraction of the libgen.is branch. -/
def libgenIdIs (cells : List Cell) : String :=
  match cells.findSome? (fun cell =>
      scanKeyNum ["libgen_id", "data-libgen-id"] cell.html.toList) with
  | some v => v
  | none => ""

/-- Cover URL construction shared by both rich branches: first four digits
of the id padded with `0000`, else the hash-bucketed fallback. -/
def coverRepoId (idStr : String) : String :=
  if idStr.length ≥ 4 then String.mk (idStr.toList.take 4) ++ "0000" else idStr

def coverUrlFromHash (baseUrl md5 : String) : String :=
  baseUrl ++ "/covers/" ++ String.mk ((md5.toList.take 1).map lcChar) ++ "/" ++ md5 ++ ".jpg"

/-- One iteration of `$('table.c tr').each` for libgen.is / libgen.st:
skip the header row, require at least nine cells, extract the fields,
accept only rows with a title, an author and a pdf/epub extension. -/
def parseRowIs (baseUrl : String) (index : Nat) (cells : Row) : Option LibGenBook :=
  if index == 0 then none
  else if cells.length ≥ 9 then
    let title := trimStr (cellAt cells 2).aText
    let author := trimStr (cellAt cells 1).text
    let publisher := trimStr (cellAt cells 3).text
    let year := trimStr (cellAt cells 4).text
    let pages := trimStr (cellAt cells 5).text
    let language := trimStr (cellAt cells 6).text
    let filesize := trimStr (cellAt cells 7).text
    let extension := trimStr (cellAt cells 8).text
    let downloadLink := (cellAt cells 9).aHref
    let md5 := (downloadLink.bind (fun l => scanMd5 l.toList)).getD ""
    let bookId := bookIdIs cells downloadLink
    let libgenId := libgenIdIs cells
    let coverUrl :=
      if libgenId != "" && md5 != "" then
        baseUrl ++ "/covers/" ++ coverRepoId libgenId ++ "/" ++ md5 ++ ".jpg"
      else if md5 != "" then coverUrlFromHash baseUrl md5
      else ""
    let titleText := title ++ " " ++ (cellAt cells 0).text
    let isbn := scanIsbn titleText.toList
    if title != "" && author != "" &&
        (lowerStr extension == "pdf" || lowerStr extension == "epub") then
      some {
        id := if bookId != "" then bookId else if md5 != "" then md5 else toString index
        libgen_id := libgenId
        title := title
        author := author
        publisher := strOpt publisher
        year := strOpt year
        pages := strOpt pages
        language := strOpt language
        filesize := strOpt filesize
        extension := lowerStr extension
        md5 := strOpt md5
        isbn := isbn
        coverUrl := strOpt coverUrl }
    else none
  else none

/-! ## Row extraction: libgen.li family

Direct translation of the `table tr` branch (`part_007` lines 503–711).
The per-cell loop threads the accumulating extraction state. -/

structure LiScan where
  coverUrl : String := ""
  bookId : String := ""
  libgenId : String := ""
  md5 : String := ""
  extension : String := ""
deriving DecidableEq

/-- Relative-URL absolutization used for img/thumb sources. -/
def absolutize (baseUrl src : String) : String :=
  if jsStartsWith src "/" then baseUrl ++ src
  else if !jsStartsWith src "http" then baseUrl ++ "/" ++ src
  else src

/-- One iteration of the libgen.li per-cell extraction loop, in source
order: cover-url field, img source, thumb source, book id methods 1–4,
libgen id, md5, extension. -/
def liScanCell (baseUrl : String) (st : LiScan) (cell : Cell) : LiScan :=
  let cellHtml := cell.html.toList
  let cellText := trimStr cell.text
  let cover1 :=
    if st.coverUrl == "" then
      match scanCoverUrlField cellHtml with
      | some v => v
      | none => st.coverUrl
    else st.coverUrl
  let cover2 :=
    if cover1 == "" then
      match scanImgSrc cellHtml with
      | some v => absolutize baseUrl v
      | none => cover1
    else cover1
  let cover3 :=
    if cover2 == "" then
      match scanThumbSrc cellHtml with
      | some v => absolutize baseUrl v
      | none => cover2
    else cover2
  let bookId1 :=
    if st.bookId == "" then
      -- `/(?:id["']?\s*[:=]\s*["']?(\d+)["']?|\bid=(\d+))/i`: every position
      -- matched by the second alternative is also matched by the first
      -- (which is tried first), so the first alternative alone decides.
      (scanKeyNum ["id"] cellHtml).getD st.bookId
    else st.bookId
  let bookId2 :=
    if bookId1 == "" then (scanIdParam cellHtml).getD bookId1 else bookId1
  let bookId3 :=
    if bookId2 == "" then (scanCoversId cellHtml).getD bookId2 else bookId2
  let bookId4 :=
    if bookId3 == "" then (scanDetailId cellHtml).getD bookId3 else bookId3
  let libgenId :=
    if st.libgenId == "" then
      (scanKeyNum ["libgen_id", "data-libgen-id", "libgen-id"] cellHtml).getD st.libgenId
    else st.libgenId
  let md5 := if st.md5 == "" then (scanHex32 cellHtml).getD st.md5 else st.md5
  let extension :=
    if containsCI cellText "pdf" || containsCI cell.html "pdf" then "pdf"
    else if containsCI cellText "epub" || containsCI cell.html "epub" then "epub"
    else st.extension
  { coverUrl := cover3, bookId := bookId4, libgenId := libgenId,
    md5 := md5, extension := extension }

/-- One iteration of `$('table tr').each` for libgen.li. -/
def parseRowLi (baseUrl : String) (format : Option String) (index : Nat)
    (cells : Row) : Option LibGenBook :=
  if index == 0 then none
  else if cells.length ≥ 5 then
    let title := trimStr (cellAt cells 0).text
    let author0 := trimStr (cellAt cells 1).text
    let publisher := trimStr (cellAt cells 2).text
    let year := trimStr (cellAt cells 3).text
    let language := trimStr (cellAt cells 4).text
    let st := cells.foldl (liScanCell baseUrl) {}
    let coverUrl :=
      if st.coverUrl == "" && st.bookId != "" && st.md5 != "" then
        baseUrl ++ "/covers/" ++ coverRepoId st.bookId ++ "/" ++ st.md5 ++ ".jpg"
      else if st.coverUrl == "" && st.md5 != "" then coverUrlFromHash baseUrl st.md5
      else st.coverUrl
    let isbn := scanIsbn title.toList
    let author :=
      if author0 == "" && title != "" then trimStr (String.mk (splitHeadAuthor title.toList))
      else author0
    -- `!format || format === 'all' || extension.toLowerCase() ===
    -- format.toLowerCase()`: `!format` is true for an undefined argument
    -- and for the falsy empty string, either of which disables the filter.
    let formatMatches :=
      match format with
      | none => true
      | some f => f == "" || f == "all" || lowerStr st.extension == lowerStr f
    if title != "" && title.length > 3 &&
        (st.extension == "pdf" || st.extension == "epub") && st.md5 != "" &&
        formatMatches then
      some {
        id := if st.bookId != "" then st.bookId else st.md5
        libgen_id := st.libgenId
        title := title
        author := if author != "" then author else "Unknown Author"
        publisher := strOpt publisher
        year := strOpt year
        pages := none
        language := strOpt language
        filesize := none
        extension := st.extension
        md5 := some st.md5
        isbn := isbn
        coverUrl := strOpt coverUrl }
    else none
  else none

/-! ## Row extraction: gen.lib.rus.ec / libgen.rs family

Direct translation of the final branch (`part_007` lines 712–749). -/

/-- Models `cells.find('a').attr('href')`: the href of the first anchor in the
row, searching the cells in order. -/
def rowFirstHref (cells : List Cell) : Option String :=
  cells.findSome? (fun c => c.aHref)

/-- One iteration of `$('table.c tr, table tr').each` for the remaining
mirror families. -/
def parseRowRus (index : Nat) (cells : Row) : Option LibGenBook :=
  if index == 0 then none
  else if cells.length ≥ 9 then
    let title :=
      let t := trimStr (cellAt cells 2).aText
      if t != "" then t else trimStr (cellAt cells 2).text
    let author := trimStr (cellAt cells 1).text
    let year := trimStr (cellAt cells 4).text
    let pages := trimStr (cellAt cells 5).text
    let language := trimStr (cellAt cells 6).text
    let filesize := trimStr (cellAt cells 7).text
    let extension := trimStr (cellAt cells 8).text
    let downloadLink :=
      match (cellAt cells 9).aHref with
      | some l => some l
      | none => rowFirstHref cells
    let md5 := (downloadLink.bind (fun l => scanMd5 l.toList)).getD ""
    if title != "" && author != "" &&
        (lowerStr extension == "pdf" || lowerStr extension == "epub") then
      some {
        id := if md5 != "" then md5 else toString index
        libgen_id := ""
        title := title
        author := author
        year := strOpt year
        pages := strOpt pages
        language := strOpt language
        filesize := strOpt filesize
        extension := lowerStr extension
        md5 := strOpt md5 }
    else none
  else none

/-! ## Extraction over a whole document -/

/-- Models `$(selector).each((index, element) => …)` collecting the pushed books:
the callback receives the running index within the selection. -/
def extractRows (f : Nat → Row → Option LibGenBook) : Nat → List Row → List LibGenBook
  | _, [] => []
  | i, r :: rs =>
    match f i r with
    | some b => b :: extractRows f (i + 1) rs
    | none => extractRows f (i + 1) rs

/-- The per-row callback selected by the mirror-family branch of
`parseSearchResults` (the source dispatches on `baseUrl.includes`). -/
def rowParser (baseUrl : String) (format : Option String) :
    Nat → Row → Option LibGenBook :=
  if containsStr baseUrl "libgen.is" || containsStr baseUrl "libgen.st" then
    parseRowIs baseUrl
  else if containsStr baseUrl "libgen.li" then
    parseRowLi baseUrl format
  else
    fun i r => parseRowRus i r

/-- The `books` array of `parseSearchResults` before post-processing. -/
def extractBooks (baseUrl : String) (rows : List Row) (format : Option String) :
    List LibGenBook :=
  extractRows (rowParser baseUrl format) 0 rows

/-! ## Post-processing: deduplication and sorting -/

/-- Models `books.filter((book, index, self) => index === self.findIndex(b =>
b.md5 === book.md5))` — note that `undefined === undefined` holds, so the
absent hash is one shared key. -/
def dedupBooks (books : List LibGenBook) : List LibGenBook :=
  (books.enum.filter (fun p =>
    books.findIdx (fun b => b.md5 == p.2.md5) == p.1)).map Prod.snd

/-- The numeric value of `a.year ? parseInt(a.year) : 0` (`none` = `NaN`). -/
def jsNumOfYear : Option String → Option Int
  | none => some 0
  | some s => if s == "" then some 0 else jsParseInt s

/-- JS truthiness of that number: `NaN` and `0` are falsy. -/
def truthyI (v : Option Int) : Bool := v.getD 0 != 0

/-- The sort comparator of `parseSearchResults`: year descending when both
years are truthy, a truthy year before a falsy one, `0` otherwise. -/
def cmpBooks (a b : LibGenBook) : Int :=
  let yearA := jsNumOfYear a.year
  let yearB := jsNumOfYear b.year
  if truthyI yearA && truthyI yearB then yearB.getD 0 - yearA.getD 0
  else if truthyI yearA && !truthyI yearB then -1
  else if !truthyI yearA && truthyI yearB then 1
  else 0

/-- Stable insertion of one element: placed before the first element it
strictly precedes under the comparator (matching the stable
`Array.prototype.sort`). -/
def insertB (x : LibGenBook) : List LibGenBook → List LibGenBook
  | [] => [x]
  | y :: ys => if cmpBooks x y < 0 then x :: y :: ys else y :: insertB x ys

/-- Models `uniqueBooks.sort(comparator)` as the unique stable sort determined by
the comparator (JS sort is stable and the comparator is consistent,
induced by the year key). -/
def sortBooks (l : List LibGenBook) : List LibGenBook :=
  l.foldl (fun acc x => insertB x acc) []

/-- Models `parseSearchResults(html, baseUrl, format)`: extract, deduplicate by
md5, sort by year descending. -/
def parseSearchResults (baseUrl : String) (rows : List Row)
    (format : Option String) : List LibGenBook :=
  sortBooks (dedupBooks (extractBooks baseUrl rows format))

/-! ## Federated search orchestrator (`searchBooks`) -/

/-- Search result shape (`LibGenSearchResult`). -/
structure LibGenSearchResult where
  books : List LibGenBook
  total : Nat
  page : Int
  limit : Int
  mirrorStatus : List String
deriving DecidableEq

/-- Failure of one mirror fetch, as classified by the catch block. -/
inductive FetchErr where
  | refused
  | timedOut
  | httpStatus (code : Nat)
  | other (msg : String)
deriving DecidableEq

/-- Models `errorMsg` of the catch block in `searchBooks`. -/
def errorMsg : FetchErr → String
  | .refused => "Connection refused"
  | .timedOut => "Connection timeout"
  | .httpStatus c => "HTTP " ++ toString c
  | .other m => m

/-- The outcome of one mirror HTTP attempt: either the request threw, or a
document (abstracted to its result rows) came back. -/
inductive MirrorTry where
  | err (e : FetchErr)
  | ok (rows : List Row)
deriving DecidableEq

/-- Result of `searchBooks` together with the status messages delivered to
`options.onStatusUpdate`, in order. -/
structure SearchOutcome where
  result : LibGenSearchResult
  statuses : List String
deriving DecidableEq

/-- The mirror loop of `searchBooks` (`part_007` lines 59–193): statuses
accumulate; the first mirror whose document parses to at least one book
wins and the loop stops; when the list is exhausted the empty result is
returned with status `All mirrors failed`. -/
def searchLoop (fmt : Option String) (page limit : Int) :
    List (String × MirrorTry) → List String → SearchOutcome
  | [], acc =>
    { result := { books := [], total := 0, page := page, limit := limit,
                  mirrorStatus := ["All mirrors failed"] },
      statuses := acc ++ ["All LibGen mirrors unavailable, returning empty results..."] }
  | (baseUrl, t) :: rest, acc =>
    let acc := acc ++ ["Searching on " ++ baseUrl ++ "..."]
    match t with
    | .err e =>
      searchLoop fmt page limit rest
        (acc ++ ["Failed to search on " ++ baseUrl ++ ": " ++ errorMsg e ++
          ", trying next mirror..."])
    | .ok rows =>
      let books := parseSearchResults baseUrl rows fmt
      if books.length > 0 then
        { result := { books := books, total := books.length, page := page,
                      limit := limit,
                      mirrorStatus := ["Successfully searched " ++ baseUrl] },
          statuses := acc ++ ["Found " ++ toString books.length ++ " books on " ++ baseUrl] }
      else
        searchLoop fmt page limit rest
          (acc ++ ["No results found on " ++ baseUrl ++ ", trying next mirror..."])

/-- Models `searchBooks(query, page, limit, options, format)`: the network is
abstracted as, per configured mirror, the outcome of its HTTP attempt.
Every failure path is caught inside the loop, so the function totalizes
to a `SearchOutcome` — it never throws. -/
def searchBooks (page limit : Int) (fmt : Option String)
    (tries : List (String × MirrorTry)) : SearchOutcome :=
  searchLoop fmt page limit tries []

/-- One mirror attempt fails when the request throws or the parsed
document yields zero candidates. -/
def triesFails (fmt : Option String) (p : String × MirrorTry) : Prop :=
  match p.2 with
  | .err _ => True
  | .ok rows => parseSearchResults p.1 rows fmt = []

instance (fmt : Option String) (p : String × MirrorTry) :
    Decidable (triesFails fmt p) := by
  unfold triesFails
  cases p.2 with
  | err e => exact inferInstanceAs (Decidable True)
  | ok rows => exact inferInstanceAs (Decidable (_ = _))

/-- The two status messages emitted for a failing attempt. -/
def failStatuses (fmt : Option String) (p : String × MirrorTry) : List String :=
  ["Searching on " ++ p.1 ++ "..."] ++
  (match p.2 with
   | .err e => ["Failed to search on " ++ p.1 ++ ": " ++ errorMsg e ++
       ", trying next mirror..."]
   | .ok _ => ["No results found on " ++ p.1 ++ ", trying next mirror..."])

/-! ## Download link resolver (`getDownloadLinks`) -/

/-- The configured download mirrors (`downloadMirrors` in `part_007`). -/
def downloadMirrors : List String :=
  ["https://libgen.li", "https://library.lol", "https://3lib.net", "https://libgen.st"]

/-- Models `getDownloadLinks(md5)`: the gated libgen.li mirror contributes the
link extracted from its ads page, if any (`liExtract` abstracts the
network-dependent `extractActualDownloadUrl`); library.lol contributes a
`/main/` pattern link; every other mirror a `/book/index.php` link. -/
def getDownloadLinks (md5 : String) (liExtract : Option String) : List String :=
  downloadMirrors.foldl (fun links mirror =>
    if containsStr mirror "library.lol" then
      links ++ [mirror ++ "/main/" ++ md5]
    else if containsStr mirror "libgen.li" then
      match liExtract with
      | some url => links ++ [url]
      | none => links
    else
      links ++ [mirror ++ "/book/index.php?md5=" ++ md5]) []

/-! ## Async search session store (`seeder.ts`)

The `ongoingSearches` map, the `startLibGenSearch` handler and the
`getLibGenSearchStatus` handler are modelled as a timed transition
system.  Node's single-threaded event loop makes each handler body and
each callback atomic; `setTimeout` deletions are modelled as timers that
fire when time passes their deadline. -/

structure SearchSession where
  status : List String
  completed : Bool
  results : Option LibGenSearchResult
  error : Option String
deriving DecidableEq

/-- The session record created by `startLibGenSearch`. -/
def initSession : SearchSession :=
  { status := ["Starting LibGen search..."], completed := false,
    results := none, error := none }

structure StoreState where
  sessions : List (String × SearchSession)
  timers : List (Nat × String)
  now : Nat
deriving DecidableEq

def emptyStore : StoreState := { sessions := [], timers := [], now := 0 }

def lookupSession (st : StoreState) (id : String) : Option SearchSession :=
  (st.sessions.find? (fun p => p.1 == id)).map Prod.snd

/-- Models `Map.prototype.set`: replace in place, else append. -/
def setSession (sessions : List (String × SearchSession)) (id : String)
    (s : SearchSession) : List (String × SearchSession) :=
  if sessions.any (fun p => p.1 == id) then
    sessions.map (fun p => if p.1 == id then (p.1, s) else p)
  else sessions ++ [(id, s)]

/-- Mutation through the object reference returned by `Map.get`. -/
def updateSession (sessions : List (String × SearchSession)) (id : String)
    (f : SearchSession → SearchSession) : List (String × SearchSession) :=
  sessions.map (fun p => if p.1 == id then (p.1, f p.2) else p)

/-- The atomic events acting on the store: the start handler, the
`onStatusUpdate` callback, the background promise resolving or rejecting,
a status poll (which may arm the 30 s cleanup timer), and the passage of
time (firing due timers). -/
inductive SearchEvent where
  | start (id : String)
  | update (id : String) (msg : String)
  | finishOk (id : String) (r : LibGenSearchResult)
  | finishErr (id : String) (msg : String)
  | poll (id : String)
  | elapse (ms : Nat)
deriving DecidableEq

/-- Eviction grace window: `setTimeout(…, 30000)`. -/
def graceMs : Nat := 30000

def updateFn (msg : String) (s : SearchSession) : SearchSession :=
  { s with status := s.status ++ [msg] }

def finishOkFn (r : LibGenSearchResult) (s : SearchSession) : SearchSession :=
  { s with results := some r, completed := true,
           status := s.status ++ ["LibGen search completed successfully"] }

def finishErrFn (msg : String) (s : SearchSession) : SearchSession :=
  { s with error := some msg, completed := true,
           status := s.status ++ ["LibGen search failed: " ++ msg] }

def stepSearch (st : StoreState) : SearchEvent → StoreState
  | .start id => { st with sessions := setSession st.sessions id initSession }
  | .update id msg =>
    { st with sessions := updateSession st.sessions id (updateFn msg) }
  | .finishOk id r =>
    { st with sessions := updateSession st.sessions id (finishOkFn r) }
  | .finishErr id msg =>
    { st with sessions := updateSession st.sessions id (finishErrFn msg) }
  | .poll id =>
    match lookupSession st id with
    | none => st
    | some s =>
      if s.completed then { st with timers := st.timers ++ [(st.now + graceMs, id)] }
      else st
  | .elapse ms =>
    let now := st.now + ms
    let fired := st.timers.filter (fun t => t.1 ≤ now)
    { sessions := st.sessions.filter
        (fun p => !(fired.any (fun t => t.2 == p.1))),
      timers := st.timers.filter (fun t => !(t.1 ≤ now)),
      now := now }

def runSearchStore (st : StoreState) (evs : List SearchEvent) : StoreState :=
  evs.foldl stepSearch st

/-- The response of `getLibGenSearchStatus`. -/
inductive PollResponse where
  | notFound
  | found (status : List String) (completed : Bool)
      (results : Option LibGenSearchResult) (error : Option String)
deriving DecidableEq

def pollResponse (st : StoreState) (id : String) : PollResponse :=
  match lookupSession st id with
  | none => .notFound
  | some s => .found s.status s.completed s.results s.error

/-! ## JS regular-expression search for the catalog dedup check

`downloadAndImportBook` builds `new RegExp(bookInfo.title, 'i')` from the
raw request strings and matches it unanchored (`$regex`).  The matcher
below gives the JS semantics for the fragment actually exercised by the
claims: literal characters, `^`, `$` and `.` under the `i` flag.
`simplePattern` delimits that fragment. -/

inductive PTok where
  | caret
  | dollar
  | dot
  | lit (c : Char)
deriving DecidableEq

def regexMeta : List Char :=
  [Char.ofNat 92, '*', '+', '?', '(', ')', '[', ']',
   Char.ofNat 123, Char.ofNat 125, '|']

/-- Patterns whose characters are all given exact semantics here. -/
def simplePattern (s : String) : Bool := s.toList.all (fun c => !(c ∈ regexMeta))

def tokenizePat (s : String) : List PTok :=
  s.toList.map (fun c =>
    if c == '^' then .caret else if c == '$' then .dollar
    else if c == '.' then .dot else .lit c)

/-- Match the token list at the current position; `isStart` records
whether the position is the beginning of the subject (for `^`). -/
def matchToksAt : List PTok → List Char → Bool → Bool
  | [], _, _ => true
  | .caret :: ts, s, isStart => isStart && matchToksAt ts s isStart
  | .dollar :: ts, s, isStart => s.isEmpty && matchToksAt ts s isStart
  | .dot :: ts, s, _ =>
    match s with
    | [] => false
    | c :: rest => c != '\n' && c != '\r' && matchToksAt ts rest false
  | .lit p :: ts, s, _ =>
    match s with
    | [] => false
    | c :: rest => lcChar p == lcChar c && matchToksAt ts rest false

def searchToksFrom (ts : List PTok) : List Char → Bool → Bool
  | s, isStart =>
    matchToksAt ts s isStart ||
    (match s with
     | [] => false
     | _ :: rest => searchToksFrom ts rest false)

/-- Unanchored case-insensitive regex search, as `$regex` with `'i'`. -/
def jsRegexSearchI (pat subject : String) : Bool :=
  searchToksFrom (tokenizePat pat) subject.toList true

/-! ## Import pipeline -/

/-- The catalog record shape produced by `importBook` and persisted by
`downloadAndImportBook` (the `Book` collaborator). -/
structure ImportRecord where
  title : String
  author : String
  description : String
  category : String
  language : String
  publicationYear : Option Int
  format : String
  filePath : String
  isDownloadable : Bool
  physicalCopies : Int
  availableCopies : Int
  coverImage : Option String
deriving DecidableEq

/-- The language lookup table of `importBook` with its `'en'` default. -/
def mapLanguage (s : String) : String :=
  if s == "english" then "en"
  else if s == "français" then "fr"
  else if s == "french" then "fr"
  else if s == "العربية" then "ar"
  else if s == "arabic" then "ar"
  else if s == "arabe" then "ar"
  else "en"

/-- Models `${x}` interpolation of a possibly-undefined string. -/
def showOptStr : Option String → String
  | none => "undefined"
  | some s => s

/-- Models `importBook(libgenBook, categoryId, downloadedFilePath)`. -/
def importBook (b : LibGenBook) (categoryId filePath : String) : ImportRecord :=
  { title := b.title
    author := b.author
    description := "Imported from LibGen. Year: " ++ showOptStr b.year ++
      ", Pages: " ++ showOptStr b.pages
    category := categoryId
    language := mapLanguage (lowerStr ((b.language).getD "English"))
    publicationYear :=
      match b.year with
      | none => none
      | some s => if s == "" then none else jsParseInt s
    format := if lowerStr b.extension == "epub" then "epub" else "pdf"
    filePath := filePath
    isDownloadable := true
    physicalCopies := 0
    availableCopies := 0
    coverImage := b.coverUrl }

theorem dropWhile_length_le (p : Char → Bool) :
    ∀ l : List Char, (l.dropWhile p).length ≤ l.length := by
  intro l
  induction l with
  | nil => simp [List.dropWhile]
  | cons c cs ih =>
    simp only [List.dropWhile]
    split
    · exact Nat.le_trans ih (Nat.le_succ _)
    · exact Nat.le_refl _

/-- Models `/\s+/g → '_'`: each maximal whitespace run becomes one underscore. -/
def collapseSpaces : List Char → List Char
  | [] => []
  | c :: rest =>
    if isJsSpace c then '_' :: collapseSpaces (rest.dropWhile isJsSpace)
    else c :: collapseSpaces rest
termination_by l => l.length
decreasing_by
  · simp only [List.length_cons]
    exact Nat.lt_succ_of_le (dropWhile_length_le _ _)
  · simp only [List.length_cons]
    omega

/-- Models `title.replace(/[^a-zA-Z0-9\s]/g, '').replace(/\s+/g, '_')`. -/
def sanitizeTitle (s : String) : String :=
  let kept := s.toList.filter (fun c =>
    isDigitC c || ('a' ≤ lcChar c && lcChar c ≤ 'z') || isJsSpace c)
  String.mk (collapseSpaces kept)

/-- How the streaming download ends: the write stream finishes, the
request/setup throws, or the write stream errors. -/
inductive DownloadOutcome where
  | finished
  | requestFailed
  | streamErrored (msg : String)
deriving DecidableEq

/-- Models `downloadBook(downloadUrl, bookInfo)`: resolves with the stored
relative path only when the stream finishes; a request failure is caught
and rethrown as `Failed to download book`; a stream error rejects with
the stream's error. -/
def downloadBook (bookInfo : LibGenBook) (timestamp : Nat)
    (outcome : DownloadOutcome) : Except String String :=
  match outcome with
  | .finished =>
    .ok ("/uploads/books/" ++ toString timestamp ++ "-" ++
      sanitizeTitle bookInfo.title ++ "." ++
      (if bookInfo.extension == "" then "pdf" else bookInfo.extension))
  | .requestFailed => .error "Failed to download book"
  | .streamErrored m => .error m

/-- Models `Book.findOne` of the dedup check: some catalog record whose title and
author both contain a match of the raw-request regexes. -/
def findExistingBook (catalog : List ImportRecord) (b : LibGenBook) :
    Option ImportRecord :=
  catalog.find? (fun r =>
    jsRegexSearchI b.title r.title && jsRegexSearchI b.author r.author)

/-- Models `parseInt(physicalCopies as string) || 0` with the destructuring
default `0`. -/
def physCopiesOf : Option String → Int
  | none => 0
  | some s => (jsParseInt s).getD 0

/-- Externally visible effects of one `downloadAndImportBook` call. -/
inductive ImportEvent where
  | download (url : String)
  | save (r : ImportRecord)
deriving DecidableEq

/-- The handler's response. -/
inductive ImportResponse where
  | forbidden
  | badRequest
  | conflict
  | serverError (msg : String)
  | created (r : ImportRecord)
deriving DecidableEq

/-- Models `downloadAndImportBook` (`seeder.ts` lines 482–559): role gate,
required-field gate, catalog dedup by regex on title and author, then the
streaming download, then `importBook` and the `Book` save.  Returns the
response, the catalog afterwards, and the effects performed. -/
def downloadAndImportBook (role downloadUrl : String)
    (bookInfo : Option LibGenBook) (categoryId : String)
    (physicalCopies : Option String) (dl : DownloadOutcome) (timestamp : Nat)
    (catalog : List ImportRecord) :
    ImportResponse × List ImportRecord × List ImportEvent :=
  if role != "staff" then (.forbidden, catalog, [])
  else
    match bookInfo with
    | none => (.badRequest, catalog, [])
    | some info =>
      if downloadUrl == "" || categoryId == "" then (.badRequest, catalog, [])
      else if (findExistingBook catalog info).isSome then (.conflict, catalog, [])
      else
        match downloadBook info timestamp dl with
        | .error m => (.serverError m, catalog, [.download downloadUrl])
        | .ok filePath =>
          let base := importBook info categoryId filePath
          let pc := physCopiesOf physicalCopies
          let record := { base with physicalCopies := pc, availableCopies := pc }
          (.created record, catalog ++ [record],
            [.download downloadUrl, .save record])

/-! ## Proof support: the sort key and its order -/

/-- A book's effective sort key: its year value when the comparator
treats it as present (truthy `parseInt`), else `none`. -/
def yearKey (b : LibGenBook) : Option Int :=
  let v := jsNumOfYear b.year
  if truthyI v then some (v.getD 0) else none

/-- The order the comparator realises on keys: keyed books descending by
year, every keyed book before every unkeyed one. -/
def keyLE (a b : LibGenBook) : Prop :=
  match yearKey a, yearKey b with
  | some x, some y => y ≤ x
  | some _, none => True
  | none, some _ => False
  | none, none => True

def keyLT (a b : LibGenBook) : Prop :=
  match yearKey a, yearKey b with
  | some x, some y => y < x
  | some _, none => True
  | none, some _ => False
  | none, none => False

theorem cmpBooks_eq (a b : LibGenBook) :
    cmpBooks a b =
      match yearKey a, yearKey b with
      | some x, some y => y - x
      | some _, none => -1
      | none, some _ => 1
      | none, none => 0 := by
  unfold cmpBooks yearKey
  rcases jsNumOfYear a.year with _ | x <;> rcases jsNumOfYear b.year with _ | y <;>
    simp only [truthyI, Option.getD_none, Option.getD_some] <;>
    split_ifs <;> simp_all

theorem cmpBooks_lt_iff (a b : LibGenBook) : cmpBooks a b < 0 ↔ keyLT a b := by
  rw [cmpBooks_eq]
  unfold keyLT
  rcases yearKey a with _ | x <;> rcases yearKey b with _ | y <;> simp <;> omega

theorem cmpBooks_not_lt (a b : LibGenBook) (h : ¬ cmpBooks a b < 0) : keyLE b a := by
  rw [cmpBooks_eq] at h
  unfold keyLE
  rcases ha : yearKey a with _ | x <;> rcases hb : yearKey b with _ | y <;>
    rw [ha, hb] at h <;> simp_all <;> omega

theorem keyLT.le {a b : LibGenBook} (h : keyLT a b) : keyLE a b := by
  unfold keyLT at h
  unfold keyLE
  rcases ha : yearKey a with _ | x <;> rcases hb : yearKey b with _ | y <;>
    rw [ha, hb] at h <;> simp_all <;> omega

theorem keyLE.trans {a b c : LibGenBook} (h1 : keyLE a b) (h2 : keyLE b c) :
    keyLE a c := by
  unfold keyLE at h1 h2 ⊢
  rcases ha : yearKey a with _ | x <;> rcases hb : yearKey b with _ | y <;>
    rcases hc : yearKey c with _ | z <;> rw [ha, hb] at h1 <;> rw [hb, hc] at h2 <;>
    simp_all <;> omega

theorem keyLT_of_lt_of_le {a b c : LibGenBook} (h1 : keyLT a b) (h2 : keyLE b c) :
    keyLT a c := by
  unfold keyLT at h1 ⊢
  unfold keyLE at h2
  rcases ha : yearKey a with _ | x <;> rcases hb : yearKey b with _ | y <;>
    rcases hc : yearKey c with _ | z <;> rw [ha, hb] at h1 <;> rw [hb, hc] at h2 <;>
    simp_all <;> omega

theorem keyLT.key_ne {a b : LibGenBook} (h : keyLT a b) : yearKey b ≠ yearKey a := by
  unfold keyLT at h
  rcases ha : yearKey a with _ | x <;> rcases hb : yearKey b with _ | y <;>
    rw [ha, hb] at h <;> simp_all
  omega

/-! ## Proof support: the stable insertion sort -/

theorem mem_insertB {z x : LibGenBook} :
    ∀ {l : List LibGenBook}, z ∈ insertB x l ↔ z = x ∨ z ∈ l := by
  intro l
  induction l with
  | nil => simp [insertB]
  | cons y ys ih =>
    unfold insertB
    split
    · simp
    · simp only [List.mem_cons, ih]
      tauto

theorem insertB_perm (x : LibGenBook) (l : List LibGenBook) :
    List.Perm (insertB x l) (x :: l) := by
  induction l with
  | nil => simp [insertB]
  | cons y ys ih =>
    unfold insertB
    split
    · exact List.Perm.refl _
    · exact ((ih.cons y).trans (List.Perm.swap x y ys))

theorem insertB_pairwise {x : LibGenBook} {l : List LibGenBook}
    (h : List.Pairwise keyLE l) : List.Pairwise keyLE (insertB x l) := by
  induction l with
  | nil => simp [insertB]
  | cons y ys ih =>
    unfold insertB
    rcases List.pairwise_cons.mp h with ⟨hy, hys⟩
    split
    · rename_i hcmp
      have hxy : keyLT x y := (cmpBooks_lt_iff x y).mp hcmp
      refine List.pairwise_cons.mpr ⟨?_, h⟩
      intro z hz
      rcases List.mem_cons.mp hz with rfl | hz'
      · exact hxy.le
      · exact hxy.le.trans (hy z hz')
    · rename_i hcmp
      refine List.pairwise_cons.mpr ⟨?_, ih hys⟩
      intro z hz
      rcases mem_insertB.mp hz with rfl | hz'
      · exact cmpBooks_not_lt _ y hcmp
      · exact hy z hz'

theorem sortFold_perm (l : List LibGenBook) :
    ∀ acc, List.Perm (l.foldl (fun a x => insertB x a) acc) (acc ++ l) := by
  induction l with
  | nil => intro acc; simp
  | cons x xs ih =>
    intro acc
    have h1 : List.Perm (xs.foldl (fun a x => insertB x a) (insertB x acc))
        (insertB x acc ++ xs) := ih _
    have h2 : List.Perm (insertB x acc ++ xs) ((x :: acc) ++ xs) :=
      List.Perm.append_right xs (insertB_perm x acc)
    have h3 : List.Perm ((x :: acc) ++ xs) (acc ++ x :: xs) :=
      (List.perm_middle).symm
    exact (h1.trans h2).trans h3

theorem sortBooks_perm (l : List LibGenBook) : List.Perm (sortBooks l) l := by
  simpa using sortFold_perm l []

theorem sortFold_pairwise (l : List LibGenBook) :
    ∀ acc, List.Pairwise keyLE acc →
      List.Pairwise keyLE (l.foldl (fun a x => insertB x a) acc) := by
  induction l with
  | nil => intro acc h; exact h
  | cons x xs ih => intro acc h; exact ih _ (insertB_pairwise h)

theorem sortBooks_pairwise (l : List LibGenBook) :
    List.Pairwise keyLE (sortBooks l) :=
  sortFold_pairwise l [] (List.Pairwise.nil)

/-- Membership in the sorted list is membership in the input. -/
theorem mem_sortBooks {b : LibGenBook} {l : List LibGenBook} :
    b ∈ sortBooks l ↔ b ∈ l := (sortBooks_perm l).mem_iff

/-! ## Proof support: stability of the sort -/

def keyIs (k : Option Int) (b : LibGenBook) : Bool := yearKey b == k

theorem filter_insertB_of_ne {x : LibGenBook} {k : Option Int}
    (hx : yearKey x ≠ k) :
    ∀ l : List LibGenBook,
      (insertB x l).filter (keyIs k) = l.filter (keyIs k) := by
  intro l
  induction l with
  | nil => simp [insertB, keyIs, hx]
  | cons y ys ih =>
    unfold insertB
    split
    · simp [List.filter_cons, keyIs, hx]
    · simp only [List.filter_cons, ih]

theorem filter_insertB_of_eq {x : LibGenBook} {k : Option Int}
    (hx : yearKey x = k) :
    ∀ l : List LibGenBook, List.Pairwise keyLE l →
      (insertB x l).filter (keyIs k) = l.filter (keyIs k) ++ [x] := by
  intro l
  induction l with
  | nil =>
    intro _
    simp [insertB, keyIs, hx]
  | cons y ys ih =>
    intro h
    rcases List.pairwise_cons.mp h with ⟨hy, hys⟩
    unfold insertB
    split
    · rename_i hcmp
      have hxy : keyLT x y := (cmpBooks_lt_iff x y).mp hcmp
      have hnil : (y :: ys).filter (keyIs k) = [] := by
        rw [List.filter_eq_nil]
        intro z hz
        have hzk : yearKey z ≠ k := by
          rcases List.mem_cons.mp hz with rfl | hz'
          · rw [← hx]; exact hxy.key_ne
          · rw [← hx]; exact (keyLT_of_lt_of_le hxy (hy z hz')).key_ne
        simp [keyIs, hzk]
      rw [List.filter_cons, hnil]
      simp [keyIs, hx, List.filter_eq_nil.mp hnil]
    · rw [List.filter_cons, List.filter_cons, ih hys]
      by_cases hyk : keyIs k y = true
      · simp [hyk]
      · simp [hyk]

theorem sortFold_filter (k : Option Int) (l : List LibGenBook) :
    ∀ acc, List.Pairwise keyLE acc →
      (l.foldl (fun a x => insertB x a) acc).filter (keyIs k) =
        acc.filter (keyIs k) ++ l.filter (keyIs k) := by
  induction l with
  | nil => intro acc _; simp
  | cons x xs ih =>
    intro acc hacc
    have step : (xs.foldl (fun a x => insertB x a) (insertB x acc)).filter (keyIs k) =
        (insertB x acc).filter (keyIs k) ++ xs.filter (keyIs k) :=
      ih _ (insertB_pairwise hacc)
    by_cases hx : yearKey x = k
    · calc ((x :: xs).foldl (fun a x => insertB x a) acc).filter (keyIs k)
          = (insertB x acc).filter (keyIs k) ++ xs.filter (keyIs k) := step
        _ = (acc.filter (keyIs k) ++ [x]) ++ xs.filter (keyIs k) := by
            rw [filter_insertB_of_eq hx acc hacc]
        _ = acc.filter (keyIs k) ++ (x :: xs).filter (keyIs k) := by
            simp [List.filter_cons, keyIs, hx]
    · calc ((x :: xs).foldl (fun a x => insertB x a) acc).filter (keyIs k)
          = (insertB x acc).filter (keyIs k) ++ xs.filter (keyIs k) := step
        _ = acc.filter (keyIs k) ++ xs.filter (keyIs k) := by
            rw [filter_insertB_of_ne hx acc]
        _ = acc.filter (keyIs k) ++ (x :: xs).filter (keyIs k) := by
            simp [List.filter_cons, keyIs, hx]

/-- Stability: the sort permutes nothing inside one key class. -/
theorem sortBooks_filter (k : Option Int) (l : List LibGenBook) :
    (sortBooks l).filter (keyIs k) = l.filter (keyIs k) := by
  simpa using sortFold_filter k l [] List.Pairwise.nil

/-! ## Proof support: the dedup filter -/

theorem dedupBooks_md5_pairwise (l : List LibGenBook) :
    List.Pairwise (fun a b => a.md5 ≠ b.md5) (dedupBooks l) := by
  unfold dedupBooks
  rw [List.pairwise_map]
  have hfst : List.Pairwise (fun p q : Nat × LibGenBook => p.1 ≠ q.1) l.enum := by
    have h0 : List.Pairwise (fun a b : Nat => a ≠ b) (l.enum.map Prod.fst) := by
      rw [List.enum_map_fst]
      exact List.nodup_range l.length
    exact List.pairwise_map.mp h0
  have hsub := List.Pairwise.sublist
    (@List.filter_sublist (Nat × LibGenBook)
      (fun p => l.findIdx (fun b => b.md5 == p.2.md5) == p.1) l.enum) hfst
  refine hsub.imp_of_mem ?_
  intro p q hp hq hne
  intro heq
  apply hne
  have hp' := (List.mem_filter.mp hp).2
  have hq' := (List.mem_filter.mp hq).2
  have hip : l.findIdx (fun b => b.md5 == p.2.md5) = p.1 := eq_of_beq hp'
  have hiq : l.findIdx (fun b => b.md5 == q.2.md5) = q.1 := eq_of_beq hq'
  rw [← hip, ← hiq, heq]

/-- Deduplication of two books with distinct md5 keys keeps both. -/
theorem dedupBooks_pair {a b : LibGenBook} (h : a.md5 ≠ b.md5) :
    dedupBooks [a, b] = [a, b] := by
  have hab : (a.md5 == b.md5) = false := beq_eq_false_iff_ne.mpr h
  simp [dedupBooks, List.enum, List.enumFrom, List.findIdx_cons, hab]

/-- Every book in the extracted list comes from some row. -/
theorem mem_extractRows {f : Nat → Row → Option LibGenBook} {b : LibGenBook} :
    ∀ {i : Nat} {rows : List Row}, b ∈ extractRows f i rows →
      ∃ j r, f j r = some b := by
  intro i rows
  induction rows generalizing i with
  | nil => intro h; simp [extractRows] at h
  | cons r rs ih =>
    intro h
    unfold extractRows at h
    cases hf : f i r with
    | none => rw [hf] at h; exact ih h
    | some b' =>
      rw [hf] at h
      rcases List.mem_cons.mp h with rfl | h'
      · exact ⟨i, r, hf⟩
      · exact ih h'

/-- Every branch's row callback skips the header row (index 0). -/
theorem rowParser_zero (baseUrl : String) (fmt : Option String) (r : Row) :
    rowParser baseUrl fmt 0 r = none := by
  unfold rowParser
  split
  · simp [parseRowIs]
  · split
    · simp [parseRowLi]
    · simp [parseRowRus]

/-- The retained books are among the extracted books. -/
theorem dedupBooks_subset {b : LibGenBook} {l : List LibGenBook}
    (h : b ∈ dedupBooks l) : b ∈ l := by
  unfold dedupBooks at h
  rcases List.mem_map.mp h with ⟨p, hp, rfl⟩
  have hmem := (List.mem_filter.mp hp).1
  have hget := List.mem_enum_iff_getElem?.mp hmem
  rw [← List.get?_eq_getElem?] at hget
  exact List.get?_mem hget

/-- The acceptance condition of the libgen.li branch forces a retained
book's extension to match a supplied format filter other than `all` and
other than the falsy empty string (both of which disable the filter). -/
theorem parseRowLi_format {u f : String} {i : Nat} {cells : Row}
    {b : LibGenBook} (h : parseRowLi u (some f) i cells = some b)
    (hf : f ≠ "all") (hf0 : f ≠ "") : b.extension = lowerStr f := by
  have hfall : (f == "all") = false := beq_eq_false_iff_ne.mpr hf
  have hfemp : (f == "") = false := beq_eq_false_iff_ne.mpr hf0
  simp only [parseRowLi, hfall, hfemp, Bool.false_or] at h
  split at h
  · exact absurd h (by simp)
  · split at h
    · split at h
      · rename_i hacc
        simp only [Bool.and_eq_true, Bool.or_eq_true, beq_iff_eq] at hacc
        rcases hacc with ⟨⟨⟨_, hext⟩, _⟩, hmatch⟩
        have hb := Option.some.inj h
        have h1 : (List.foldl (liScanCell u)
            { coverUrl := "", bookId := "", libgenId := "", md5 := "",
              extension := "" } cells).extension = lowerStr f := by
          rcases hext with hpdf | hepub
          · rw [hpdf] at hmatch ⊢
            rw [show lowerStr "pdf" = "pdf" by decide] at hmatch
            exact hmatch
          · rw [hepub] at hmatch ⊢
            rw [show lowerStr "epub" = "epub" by decide] at hmatch
            exact hmatch
        exact ((congrArg LibGenBook.extension hb).symm).trans h1
      · exact absurd h (by simp)
    · exact absurd h (by simp)

/-! ## The claims -/

/-! ### Concrete documents used by counterexamples and witnesses -/

def mdA : String := "aaaaaaaaaaaaaaaaaaaaaaaaaaaaaaaa"

def mdB : String := "bbbbbbbbbbbbbbbbbbbbbbbbbbbbbbbb"

/-- A well-formed libgen.is row with no content hash anywhere. -/
def hashlessRowA : Row :=
  [{}, { text := "Author One" }, { aText := "First Book" }, {}, {}, {}, {}, {},
   { text := "pdf" }]

def hashlessRowB : Row :=
  [{}, { text := "Author Two" }, { aText := "Second Book" }, {}, {}, {}, {}, {},
   { text := "epub" }]

/-- A well-formed libgen.is row carrying hash `mdA` in its download link. -/
def goodRowA : Row :=
  [{}, { text := "A1" }, { aText := "Good One" }, {}, {}, {}, {}, {},
   { text := "pdf" }, { aHref := some ("x?md5=" ++ mdA) }]

def goodRowB : Row :=
  [{}, { text := "A2" }, { aText := "Good Two" }, {}, {}, {}, {}, {},
   { text := "epub" }, { aHref := some ("x?md5=" ++ mdB) }]

/-- The candidate extracted from `goodRowA`. -/
def bookA : LibGenBook :=
  { id := mdA, title := "Good One", author := "A1", extension := "pdf",
    md5 := some mdA,
    coverUrl := some ("https://libgen.is/covers/a/" ++ mdA ++ ".jpg") }

/-- The candidate extracted from `goodRowB`. -/
def bookB : LibGenBook :=
  { id := mdB, title := "Good Two", author := "A2", extension := "epub",
    md5 := some mdB,
    coverUrl := some ("https://libgen.is/covers/b/" ++ mdB ++ ".jpg") }

/-- A row no mirror family accepts (a single junk cell). -/
def malformedRow : Row := [{ text := "broken" }]

/-- Accepted row with no year cell. -/
def yearlessRow : Row :=
  [{}, { text := "A1" }, { aText := "No Year Book" }, {}, {}, {}, {}, {},
   { text := "pdf" }, { aHref := some ("x?md5=" ++ mdA) }]

/-- Accepted row whose year cell is the string `0`. -/
def yearZeroRow : Row :=
  [{}, { text := "A2" }, { aText := "Zero Year Book" }, {}, { text := "0" }, {},
   {}, {}, { text := "pdf" }, { aHref := some ("x?md5=" ++ mdB) }]

/-- libgen.li rows: title in cell 0, md5 hidden in a cell's HTML, the
extension detected by substring. -/
def liPdfRow : Row :=
  [{ text := "A Pdf Candidate" }, { text := "Author L1" }, {}, {},
   { text := "English", html := mdA }]

def liEpubRow : Row :=
  [{ text := "An Epub Candidate" }, { text := "Author L2" }, {}, {},
   { text := "English", html := mdB }]

def liDocRows : List Row := [[], liPdfRow, liEpubRow]

/-! ### C1 — dedup by content hash (corrected)

The second half of the claim fails: `findIndex(b => b.md5 === book.md5)`
compares `undefined === undefined` as true, so candidates without a hash
are deduplicated against each other — only the first hashless candidate
survives. -/

/-- C1 counterexample: a libgen.is document with two accepted rows, both
extracted without a hash; the retained list keeps only one of them,
refuting "every extracted hashless candidate … appears in the output". -/
theorem dedup_drops_second_hashless_candidate :
    (extractBooks "https://libgen.is" [[], hashlessRowA, hashlessRowB] none).map
        (fun b => b.md5) = [none, none] ∧
    (parseSearchResults "https://libgen.is" [[], hashlessRowA, hashlessRowB]
        none).length = 1 := by
  constructor
  · decide
  · decide

/-- C1 (amended): in every list returned by `parseSearchResults`, the md5
keys of the retained candidates — the absent hash counting as one shared
key — are pairwise distinct: at most one candidate per non-empty hash
survives, and at most one hashless candidate survives. -/
theorem parseSearchResults_md5_pairwise (baseUrl : String) (rows : List Row)
    (fmt : Option String) :
    List.Pairwise (fun a b => a.md5 ≠ b.md5)
      (parseSearchResults baseUrl rows fmt) := by
  unfold parseSearchResults
  have hperm := sortBooks_perm (dedupBooks (extractBooks baseUrl rows fmt))
  have hsym : ∀ {x y : LibGenBook}, x.md5 ≠ y.md5 → y.md5 ≠ x.md5 :=
    fun h => fun he => h he.symm
  exact (List.Perm.pairwise_iff hsym hperm).mpr
    (dedupBooks_md5_pairwise (extractBooks baseUrl rows fmt))

/-! ### C3 — sort order (corrected)

The comparator decides "has a year" by JS truthiness of `parseInt(year)`,
so a year string parsing to `0` counts as *no* year: a candidate with the
parsed publication year `0` does not precede a candidate without any
year, refuting the claim as stated. -/

/-- C3 counterexample: both rows are retained; the second retained
candidate's year `0` parses (to `0`), the first has no year, yet the
yearless candidate precedes it. -/
theorem sort_year_zero_counterexample :
    (parseSearchResults "https://libgen.is" [[], yearlessRow, yearZeroRow]
        none).map (fun b => b.year) = [none, some "0"] ∧
    jsParseInt "0" = some 0 := by
  constructor
  · decide
  · decide

/-- C3 (amended): for every run of `parseSearchResults`, writing
`yearKey b` for the year of `b` when `parseInt` yields a truthy (nonzero,
non-`NaN`) value and `none` otherwise: consecutive retained candidates
are ordered by `keyLE` (year descending among keyed candidates, keyed
candidates before unkeyed ones), and within each key class — including
all unkeyed candidates — the deduplicated extraction order is preserved
(stable sort). -/
theorem parseSearchResults_sorted_stable (baseUrl : String) (rows : List Row)
    (fmt : Option String) :
    List.Pairwise keyLE (parseSearchResults baseUrl rows fmt) ∧
    ∀ k, (parseSearchResults baseUrl rows fmt).filter (keyIs k) =
      (dedupBooks (extractBooks baseUrl rows fmt)).filter (keyIs k) := by
  constructor
  · exact sortBooks_pairwise _
  · intro k
    exact sortBooks_filter k _

/-! ### C4 — row-level resilience (confirmed)

No operation in the per-row extraction can throw: a malformed row simply
fails the cell-count or acceptance checks and contributes nothing, while
the surrounding rows are processed independently. -/

/-- C4: a row rejected by the row callback, placed between two accepted
rows, does not prevent either accepted row's candidate from being
retained (their hash keys being distinct, so that deduplication does not
interfere). -/
theorem malformed_row_not_blocking (baseUrl : String) (fmt : Option String)
    (hdr g1 bad g2 : Row) (b1 b2 : LibGenBook)
    (hbad : rowParser baseUrl fmt 2 bad = none)
    (h1 : rowParser baseUrl fmt 1 g1 = some b1)
    (h2 : rowParser baseUrl fmt 3 g2 = some b2)
    (hmd5 : b1.md5 ≠ b2.md5) :
    b1 ∈ parseSearchResults baseUrl [hdr, g1, bad, g2] fmt ∧
    b2 ∈ parseSearchResults baseUrl [hdr, g1, bad, g2] fmt := by
  have hext : extractBooks baseUrl [hdr, g1, bad, g2] fmt = [b1, b2] := by
    unfold extractBooks
    simp [extractRows, rowParser_zero, hbad, h1, h2]
  unfold parseSearchResults
  rw [hext, dedupBooks_pair hmd5]
  constructor <;> rw [mem_sortBooks] <;> simp

/-- C4 witness: concrete libgen.is document with a junk row between the
two well-formed rows. -/
theorem malformed_row_not_blocking_witness :
    (rowParser "https://libgen.is" none 2 malformedRow = none ∧
     bookA.md5 ≠ bookB.md5) ∧
    bookA ∈ parseSearchResults "https://libgen.is"
        [[], goodRowA, malformedRow, goodRowB] none ∧
    bookB ∈ parseSearchResults "https://libgen.is"
        [[], goodRowA, malformedRow, goodRowB] none :=
  ⟨⟨by decide, by decide⟩,
   malformed_row_not_blocking "https://libgen.is" none [] goodRowA malformedRow
     goodRowB bookA bookB (by decide) (by decide) (by decide) (by decide)⟩

/-! ### C9 — format filter (corrected)

Only the libgen.li branch applies `formatMatches`; the libgen.is /
libgen.st and gen.lib.rus.ec / libgen.rs branches ignore the supplied
format entirely. -/

/-- C9 counterexample: with `format = "epub"`, a libgen.is row whose
resolved extension is `pdf` is still retained. -/
theorem format_filter_ignored_on_libgen_is :
    (parseSearchResults "https://libgen.is" [[], goodRowA] (some "epub")).map
      (fun b => b.extension) = ["pdf"] := by
  decide

/-- C9 (amended): the format filter is enforced by the libgen.li family
only — there, a supplied non-empty format other than `all` forces every
retained candidate's extension to equal the lowercased filter (an empty
string is falsy, so `!format` disables the filter just like an absent
argument); the other mirror families ignore the filter entirely (see the
counterexample). -/
theorem format_filter_enforced_on_libgen_li (rows : List Row) (f : String)
    (hf : f ≠ "all") (hf0 : f ≠ "") :
    ∀ b ∈ parseSearchResults "https://libgen.li" rows (some f),
      b.extension = lowerStr f := by
  intro b hb
  unfold parseSearchResults at hb
  rw [mem_sortBooks] at hb
  have hb2 := dedupBooks_subset hb
  have hbr : extractBooks "https://libgen.li" rows (some f) =
      extractRows (parseRowLi "https://libgen.li" (some f)) 0 rows := by
    unfold extractBooks rowParser
    have hc1 : (containsStr "https://libgen.li" "libgen.is" ||
        containsStr "https://libgen.li" "libgen.st") = false := by decide
    have hc2 : containsStr "https://libgen.li" "libgen.li" = true := by decide
    rw [hc1, hc2]
    simp
  rw [hbr] at hb2
  rcases mem_extractRows hb2 with ⟨j, r, hjr⟩
  exact parseRowLi_format hjr hf hf0

/-- C9 witness: a libgen.li document with a pdf row and an epub row under
filter `epub` retains only the epub candidate, while the falsy empty
filter disables the check and retains both. -/
theorem format_filter_enforced_on_libgen_li_witness :
    (("epub" : String) ≠ "all" ∧ ("epub" : String) ≠ "") ∧
    (∀ b ∈ parseSearchResults "https://libgen.li" liDocRows (some "epub"),
      b.extension = lowerStr "epub") ∧
    (parseSearchResults "https://libgen.li" liDocRows (some "epub")).map
      (fun b => b.title) = ["An Epub Candidate"] ∧
    (parseSearchResults "https://libgen.li" liDocRows (some "")).length = 2 :=
  ⟨⟨by decide, by decide⟩,
   format_filter_enforced_on_libgen_li liDocRows "epub" (by decide) (by decide),
   by decide, by decide⟩

/-! ### C2 / C5 — the mirror fallback loop -/

/-- Failing mirrors are skipped, each contributing its two status
messages, without touching the result. -/
theorem searchLoop_skip (fmt : Option String) (page limit : Int) :
    ∀ (pre rest : List (String × MirrorTry)) (acc : List String),
      (∀ p ∈ pre, triesFails fmt p) →
      searchLoop fmt page limit (pre ++ rest) acc =
        searchLoop fmt page limit rest
          (acc ++ (pre.map (failStatuses fmt)).join) := by
  intro pre
  induction pre with
  | nil => intro rest acc _; simp
  | cons p ps ih =>
    intro rest acc hfail
    have hp := hfail p (List.mem_cons_self p ps)
    have hps : ∀ q ∈ ps, triesFails fmt q :=
      fun q hq => hfail q (List.mem_cons_of_mem p hq)
    obtain ⟨u, t⟩ := p
    cases t with
    | err e =>
      have : searchLoop fmt page limit (((u, .err e) :: ps) ++ rest) acc =
          searchLoop fmt page limit (ps ++ rest)
            (acc ++ failStatuses fmt (u, .err e)) := by
        simp [searchLoop, failStatuses]
      rw [this, ih rest _ hps]
      simp [failStatuses]
    | ok rows =>
      have hparse : parseSearchResults u rows fmt = [] := hp
      have : searchLoop fmt page limit (((u, .ok rows) :: ps) ++ rest) acc =
          searchLoop fmt page limit (ps ++ rest)
            (acc ++ failStatuses fmt (u, .ok rows)) := by
        simp [searchLoop, hparse, failStatuses]
      rw [this, ih rest _ hps]
      simp [failStatuses]

/-- C5: when every configured mirror attempt fails — the request throws
or the parsed document yields zero candidates — `searchBooks` returns
(it never throws: the model is total because every failure path is
caught) the empty result with `total = 0` and the `All mirrors failed`
status, after emitting the exhaustion status message. -/
theorem searchBooks_all_mirrors_fail (page limit : Int) (fmt : Option String)
    (tries : List (String × MirrorTry))
    (h : ∀ p ∈ tries, triesFails fmt p) :
    searchBooks page limit fmt tries =
      { result := { books := [], total := 0, page := page, limit := limit,
                    mirrorStatus := ["All mirrors failed"] },
        statuses := (tries.map (failStatuses fmt)).join ++
          ["All LibGen mirrors unavailable, returning empty results..."] } := by
  unfold searchBooks
  have hskip := searchLoop_skip fmt page limit tries [] [] h
  rw [List.append_nil] at hskip
  rw [hskip]
  simp [searchLoop]

/-- C5 witness: two mirrors, one timing out and one returning an empty
document. -/
theorem searchBooks_all_mirrors_fail_witness :
    (∀ p ∈ [(("https://libgen.is" : String), MirrorTry.err .timedOut),
            ("http://libgen.rs", MirrorTry.ok [[]])], triesFails none p) ∧
    searchBooks 1 25 none
        [("https://libgen.is", .err .timedOut), ("http://libgen.rs", .ok [[]])] =
      { result := { books := [], total := 0, page := 1, limit := 25,
                    mirrorStatus := ["All mirrors failed"] },
        statuses :=
          ["Searching on https://libgen.is...",
           "Failed to search on https://libgen.is: Connection timeout, trying next mirror...",
           "Searching on http://libgen.rs...",
           "No results found on http://libgen.rs, trying next mirror...",
           "All LibGen mirrors unavailable, returning empty results..."] } :=
  ⟨by decide,
   by
    rw [searchBooks_all_mirrors_fail 1 25 none _ (by decide)]
    decide⟩

/-- C2 counterexample: first mirror times out, second returns one
candidate.  The claim requires the returned mirror-status list to record
two attempts; the code returns a single success entry (the attempt chain
lives only in the `onStatusUpdate` messages). -/
theorem mirrorStatus_single_entry_counterexample :
    (searchBooks 1 25 none [("http://libgen.rs", .err .timedOut),
        ("https://libgen.is", .ok [[], goodRowA])]).result.books.length = 1 ∧
    (searchBooks 1 25 none [("http://libgen.rs", .err .timedOut),
        ("https://libgen.is", .ok [[], goodRowA])]).result.mirrorStatus =
      ["Successfully searched https://libgen.is"] ∧
    (searchBooks 1 25 none [("http://libgen.rs", .err .timedOut),
        ("https://libgen.is", .ok [[], goodRowA])]).result.mirrorStatus.length
      ≠ 2 := by
  refine ⟨?_, ?_, ?_⟩ <;> decide

/-- C2 (amended): with mirrors `1..k-1` failing and mirror `k` yielding
`n ≥ 1` candidates, `searchBooks` stops at mirror `k` (the result does
not depend on the later mirrors), returns those `n` candidates attributed
to mirror `k` — but the returned `mirrorStatus` holds exactly the single
entry naming mirror `k`; the k-attempt chain is recorded through the
`onStatusUpdate` status messages (two per failed mirror, then the search
and found messages of mirror `k`). -/
theorem searchBooks_stops_at_first_success (page limit : Int)
    (fmt : Option String) (pre post : List (String × MirrorTry))
    (url : String) (rows : List Row)
    (hpre : ∀ p ∈ pre, triesFails fmt p)
    (hok : parseSearchResults url rows fmt ≠ []) :
    searchBooks page limit fmt (pre ++ (url, .ok rows) :: post) =
      { result := { books := parseSearchResults url rows fmt,
                    total := (parseSearchResults url rows fmt).length,
                    page := page, limit := limit,
                    mirrorStatus := ["Successfully searched " ++ url] },
        statuses := (pre.map (failStatuses fmt)).join ++
          ["Searching on " ++ url ++ "...",
           "Found " ++ toString (parseSearchResults url rows fmt).length ++
             " books on " ++ url] } := by
  unfold searchBooks
  rw [searchLoop_skip fmt page limit pre _ [] hpre]
  have hlen : (parseSearchResults url rows fmt).length > 0 :=
    List.length_pos.mpr hok
  simp [searchLoop, hlen]

/-- C2 witness: one timing-out mirror, then a mirror returning one row;
the status chain records both attempts, the mirror status the success. -/
theorem searchBooks_stops_at_first_success_witness :
    (∀ p ∈ [(("http://libgen.rs" : String), MirrorTry.err .timedOut)],
        triesFails none p) ∧
    parseSearchResults "https://libgen.is" [[], goodRowA] none ≠ [] ∧
    searchBooks 1 25 none [("http://libgen.rs", .err .timedOut),
        ("https://libgen.is", .ok [[], goodRowA])] =
      { result := { books := [bookA], total := 1, page := 1, limit := 25,
                    mirrorStatus := ["Successfully searched https://libgen.is"] },
        statuses :=
          ["Searching on http://libgen.rs...",
           "Failed to search on http://libgen.rs: Connection timeout, trying next mirror...",
           "Searching on https://libgen.is...",
           "Found 1 books on https://libgen.is"] } :=
  ⟨by decide, by decide,
   (searchBooks_stops_at_first_success 1 25 none
      [("http://libgen.rs", .err .timedOut)] [] "https://libgen.is"
      [[], goodRowA] (by decide) (by decide)).trans (by decide)⟩

/-! ### C10 — download links (confirmed) -/

/-- C10: for every md5 and every outcome of the gated libgen.li ads-page
extraction, `getDownloadLinks` returns the optional libgen.li link
followed by the template links — the `library.lol/main` pattern link and
one `/book/index.php?md5=` link per remaining (non-gated) download mirror
— so the list is always non-empty; only the gated libgen.li mirror can
contribute nothing. -/
theorem getDownloadLinks_always_nonempty (md5 : String)
    (liExtract : Option String) :
    getDownloadLinks md5 liExtract =
      liExtract.toList ++
        ["https://library.lol/main/" ++ md5,
         "https://3lib.net/book/index.php?md5=" ++ md5,
         "https://libgen.st/book/index.php?md5=" ++ md5] ∧
    getDownloadLinks md5 liExtract ≠ [] ∧
    ("https://library.lol/main/" ++ md5) ∈ getDownloadLinks md5 liExtract := by
  have heq : getDownloadLinks md5 liExtract =
      liExtract.toList ++
        ["https://library.lol/main/" ++ md5,
         "https://3lib.net/book/index.php?md5=" ++ md5,
         "https://libgen.st/book/index.php?md5=" ++ md5] := by
    cases liExtract <;> rfl
  refine ⟨heq, ?_, ?_⟩
  · rw [heq]
    cases liExtract <;> simp
  · rw [heq]
    cases liExtract <;> simp

/-! ### C7 — catalog dedup on import (code bug)

The dedup check builds `new RegExp(bookInfo.title, 'i')` from the raw
request string.  A title containing regex syntax — here `a$b`, where `$`
asserts end-of-input mid-pattern — can never match its own text, so the
second identical import is not rejected: it downloads and imports a
duplicate. -/

def isCreated : ImportResponse → Bool
  | .created _ => true
  | _ => false

/-- The book imported twice; its title holds a `$`. -/
def dupInfo : LibGenBook :=
  { id := "1", title := "a$b", author := "Cormen", extension := "pdf",
    md5 := some mdA }

/-- C7: both identical calls succeed — the second is not rejected with
the conflict ("already exists") response, performs a second download and
leaves two catalog records; the title is inside the regex fragment the
matcher models, and its pattern does not match its own text. -/
theorem regex_metachar_title_reimported :
    simplePattern "a$b" = true ∧
    jsRegexSearchI "a$b" "a$b" = false ∧
    isCreated (downloadAndImportBook "staff" "http://dl" (some dupInfo) "cat1"
      none .finished 1000 []).1 = true ∧
    isCreated (downloadAndImportBook "staff" "http://dl" (some dupInfo) "cat1"
      none .finished 2000
      (downloadAndImportBook "staff" "http://dl" (some dupInfo) "cat1"
        none .finished 1000 []).2.1).1 = true ∧
    (downloadAndImportBook "staff" "http://dl" (some dupInfo) "cat1"
      none .finished 2000
      (downloadAndImportBook "staff" "http://dl" (some dupInfo) "cat1"
        none .finished 1000 []).2.1).1 ≠ ImportResponse.conflict ∧
    ImportEvent.download "http://dl" ∈
      (downloadAndImportBook "staff" "http://dl" (some dupInfo) "cat1"
        none .finished 2000
        (downloadAndImportBook "staff" "http://dl" (some dupInfo) "cat1"
          none .finished 1000 []).2.1).2.2 ∧
    (downloadAndImportBook "staff" "http://dl" (some dupInfo) "cat1"
      none .finished 2000
      (downloadAndImportBook "staff" "http://dl" (some dupInfo) "cat1"
        none .finished 1000 []).2.1).2.1.length = 2 := by
  refine ⟨?_, ?_, ?_, ?_, ?_, ?_, ?_⟩ <;> decide

/-! ### C8 — no catalog record on download failure (confirmed) -/

/-- C8: whenever the streaming download does not finish — the request
throws or the write stream errors — `downloadAndImportBook` leaves the
catalog unchanged, persists no record (`save` never fires) and returns no
created response: the `ImportRecord` is constructed and saved only after
`downloadBook` resolves. -/
theorem no_catalog_record_on_download_failure (role downloadUrl : String)
    (bookInfo : Option LibGenBook) (categoryId : String)
    (physicalCopies : Option String) (dl : DownloadOutcome) (ts : Nat)
    (catalog : List ImportRecord) (hdl : dl ≠ .finished) :
    (downloadAndImportBook role downloadUrl bookInfo categoryId physicalCopies
        dl ts catalog).2.1 = catalog ∧
    (∀ r, ImportEvent.save r ∉
      (downloadAndImportBook role downloadUrl bookInfo categoryId
        physicalCopies dl ts catalog).2.2) ∧
    (∀ r, (downloadAndImportBook role downloadUrl bookInfo categoryId
        physicalCopies dl ts catalog).1 ≠ ImportResponse.created r) := by
  unfold downloadAndImportBook
  split
  · simp
  · split
    · simp
    · split
      · simp
      · split
        · simp
        · cases dl with
          | finished => exact absurd rfl hdl
          | requestFailed => simp [downloadBook]
          | streamErrored m => simp [downloadBook]

/-- C8 witness: a request failure on a fresh catalog. -/
theorem no_catalog_record_on_download_failure_witness :
    (DownloadOutcome.requestFailed ≠ DownloadOutcome.finished) ∧
    ((downloadAndImportBook "staff" "http://dl" (some dupInfo) "cat1" none
        .requestFailed 1000 []).2.1 = [] ∧
      (∀ r, ImportEvent.save r ∉
        (downloadAndImportBook "staff" "http://dl" (some dupInfo) "cat1" none
          .requestFailed 1000 []).2.2) ∧
      (∀ r, (downloadAndImportBook "staff" "http://dl" (some dupInfo) "cat1"
          none .requestFailed 1000 []).1 ≠ ImportResponse.created r)) :=
  ⟨by decide,
   no_catalog_record_on_download_failure "staff" "http://dl" (some dupInfo)
     "cat1" none .requestFailed 1000 [] (by decide)⟩

/-! ### C6 — session lifecycle -/

/-- List-level lookup (what `lookupSession` computes on `sessions`). -/
def lookupList (se : List (String × SearchSession)) (id : String) :
    Option SearchSession :=
  (se.find? (fun p => p.1 == id)).map Prod.snd

theorem lookupSession_eq (st : StoreState) (id : String) :
    lookupSession st id = lookupList st.sessions id := rfl

/-- Models `find?` by key commutes with a first-component-preserving map. -/
theorem find_map_fst_preserving (g : String × SearchSession → String × SearchSession)
    (hg : ∀ p, (g p).1 = p.1) (id : String) :
    ∀ se : List (String × SearchSession),
      List.find? (fun p => p.1 == id) (se.map g) =
        (List.find? (fun p => p.1 == id) se).map g := by
  intro se
  induction se with
  | nil => simp
  | cons p ps ih =>
    simp only [List.map_cons, List.find?_cons, hg p]
    cases p.1 == id
    · exact ih
    · rfl

theorem updateSession_fst (id2 : String) (f : SearchSession → SearchSession) :
    ∀ p : String × SearchSession,
      ((if (p.1 == id2) = true then (p.1, f p.2) else p)).1 = p.1 := by
  intro p
  split <;> rfl

theorem ite_pair_fst (c : Bool) (a : String × SearchSession) (v : SearchSession) :
    (if c = true then (a.1, v) else a).1 = a.1 := by
  split <;> rfl

theorem lookupList_set_self (se : List (String × SearchSession)) (id : String)
    (s : SearchSession) : lookupList (setSession se id s) id = some s := by
  unfold setSession
  split
  · rename_i hany
    unfold lookupList
    rw [find_map_fst_preserving _ (fun p => ite_pair_fst (p.1 == id) p s) id]
    have hsome : (List.find? (fun p => p.1 == id) se).isSome = true := by
      rw [List.find?_isSome]
      simpa using hany
    cases hf : List.find? (fun p => p.1 == id) se with
    | none => rw [hf] at hsome; simp at hsome
    | some e =>
      have he : (e.1 == id) = true := by
        have := List.find?_some hf
        simpa using this
      simp [eq_of_beq he]
  · rename_i hany
    unfold lookupList
    rw [List.find?_append]
    have hnone : List.find? (fun p => p.1 == id) se = none := by
      rw [List.find?_eq_none]
      intro x hx hpx
      exact hany (List.any_eq_true.mpr ⟨x, hx, hpx⟩)
    rw [hnone]
    simp [List.find?]

theorem lookupList_set_ne (se : List (String × SearchSession))
    (id id2 : String) (s : SearchSession) (hne : id ≠ id2) :
    lookupList (setSession se id2 s) id = lookupList se id := by
  unfold setSession
  split
  · unfold lookupList
    rw [find_map_fst_preserving _ (fun p => ite_pair_fst (p.1 == id2) p s) id]
    cases hf : List.find? (fun p => p.1 == id) se with
    | none => rfl
    | some e =>
      have he : (e.1 == id) = true := by
        have := List.find?_some hf
        simpa using this
      have he2 : (e.1 == id2) = false :=
        beq_eq_false_iff_ne.mpr ((eq_of_beq he) ▸ hne)
      simp [beq_eq_false_iff_ne.mp he2]
  · unfold lookupList
    rw [List.find?_append]
    cases hf : List.find? (fun p => p.1 == id) se with
    | none =>
      have hid : (id2 == id) = false := beq_eq_false_iff_ne.mpr (Ne.symm hne)
      simp [hf, List.find?, hid]
    | some e => simp [hf]

theorem lookupList_update_self (se : List (String × SearchSession))
    (id : String) (f : SearchSession → SearchSession) :
    lookupList (updateSession se id f) id = (lookupList se id).map f := by
  unfold lookupList updateSession
  rw [find_map_fst_preserving _ (fun p => ite_pair_fst (p.1 == id) p (f p.2)) id]
  cases hf : List.find? (fun p => p.1 == id) se with
  | none => rfl
  | some e =>
    have he : (e.1 == id) = true := by
      have := List.find?_some hf
      simpa using this
    simp [eq_of_beq he]

theorem lookupList_update_ne (se : List (String × SearchSession))
    (id id2 : String) (f : SearchSession → SearchSession) (hne : id ≠ id2) :
    lookupList (updateSession se id2 f) id = lookupList se id := by
  unfold lookupList updateSession
  rw [find_map_fst_preserving _ (fun p => ite_pair_fst (p.1 == id2) p (f p.2)) id]
  cases hf : List.find? (fun p => p.1 == id) se with
  | none => rfl
  | some e =>
    have he : (e.1 == id) = true := by
      have := List.find?_some hf
      simpa using this
    have he2 : (e.1 == id2) = false :=
      beq_eq_false_iff_ne.mpr ((eq_of_beq he) ▸ hne)
    simp [beq_eq_false_iff_ne.mp he2]

theorem lookupList_filter_fst (se : List (String × SearchSession))
    (q : String → Bool) (id : String) :
    lookupList (se.filter (fun p => q p.1)) id =
      if q id = true then lookupList se id else none := by
  induction se with
  | nil => simp [lookupList]
  | cons p ps ih =>
    by_cases hp : (p.1 == id) = true
    · have hpid : p.1 = id := eq_of_beq hp
      by_cases hq : q id = true
      · have hqp : q p.1 = true := by rw [hpid]; exact hq
        rw [List.filter_cons, if_pos hqp]
        simp [lookupList, List.find?_cons, hp, hq]
      · have hqp : ¬ q p.1 = true := by rw [hpid]; exact hq
        rw [List.filter_cons, if_neg hqp, ih, if_neg hq, if_neg hq]
    · by_cases hq2 : q p.1 = true
      · rw [List.filter_cons, if_pos hq2]
        have : lookupList (p :: ps.filter (fun p => q p.1)) id =
            lookupList (ps.filter (fun p => q p.1)) id := by
          simp [lookupList, List.find?_cons, hp]
        rw [this, ih]
        by_cases hq : q id = true
        · rw [if_pos hq, if_pos hq]
          simp [lookupList, List.find?_cons, hp]
        · rw [if_neg hq, if_neg hq]
      · rw [List.filter_cons, if_neg hq2, ih]
        by_cases hq : q id = true
        · rw [if_pos hq, if_pos hq]
          simp [lookupList, List.find?_cons, hp]
        · rw [if_neg hq, if_neg hq]

theorem stepSearch_poll_sessions (st : StoreState) (id : String) :
    (stepSearch st (.poll id)).sessions = st.sessions := by
  simp only [stepSearch]
  cases h : lookupSession st id with
  | none => rfl
  | some s =>
    dsimp only
    split <;> rfl

theorem lookup_elapse (st : StoreState) (ms : Nat) (id : String) :
    lookupSession (stepSearch st (.elapse ms)) id =
      if (st.timers.filter (fun t => t.1 ≤ st.now + ms)).any
          (fun t => t.2 == id) = true then none
      else lookupSession st id := by
  have hs : (stepSearch st (.elapse ms)).sessions =
      st.sessions.filter (fun p =>
        !((st.timers.filter (fun t => t.1 ≤ st.now + ms)).any
          (fun t => t.2 == p.1))) := rfl
  have hq := lookupList_filter_fst st.sessions
    (fun x => !((st.timers.filter (fun t => t.1 ≤ st.now + ms)).any
      (fun t => t.2 == x))) id
  rw [lookupSession_eq, hs, hq]
  by_cases h : (st.timers.filter (fun t => t.1 ≤ st.now + ms)).any
      (fun t => t.2 == id) = true
  · simp [h]
  · simp [h, lookupSession_eq]

/-- One step never shortens the status log of a session that survives it
(re-`start` of the same id excluded). -/
theorem step_status_mono {st : StoreState} {ev : SearchEvent} {id : String}
    {s s' : SearchSession} (hev : ev ≠ .start id)
    (h1 : lookupSession st id = some s)
    (h2 : lookupSession (stepSearch st ev) id = some s') :
    s.status.length ≤ s'.status.length := by
  cases ev with
  | start id2 =>
    have hne : id ≠ id2 := by
      intro h
      exact hev (by rw [h])
    have hs : (stepSearch st (.start id2)).sessions =
        setSession st.sessions id2 initSession := rfl
    rw [lookupSession_eq, hs, lookupList_set_ne _ _ _ _ hne,
      ← lookupSession_eq, h1] at h2
    cases h2
    exact Nat.le_refl _
  | update id2 msg =>
    have hs : (stepSearch st (.update id2 msg)).sessions =
        updateSession st.sessions id2 (updateFn msg) := rfl
    by_cases hid : id = id2
    · subst hid
      rw [lookupSession_eq, hs, lookupList_update_self,
        ← lookupSession_eq, h1] at h2
      cases h2
      simp [updateFn, finishOkFn, finishErrFn]
    · rw [lookupSession_eq, hs, lookupList_update_ne _ _ _ _ hid,
        ← lookupSession_eq, h1] at h2
      cases h2
      exact Nat.le_refl _
  | finishOk id2 r =>
    have hs : (stepSearch st (.finishOk id2 r)).sessions =
        updateSession st.sessions id2 (finishOkFn r) := rfl
    by_cases hid : id = id2
    · subst hid
      rw [lookupSession_eq, hs, lookupList_update_self,
        ← lookupSession_eq, h1] at h2
      cases h2
      simp [updateFn, finishOkFn, finishErrFn]
    · rw [lookupSession_eq, hs, lookupList_update_ne _ _ _ _ hid,
        ← lookupSession_eq, h1] at h2
      cases h2
      exact Nat.le_refl _
  | finishErr id2 msg =>
    have hs : (stepSearch st (.finishErr id2 msg)).sessions =
        updateSession st.sessions id2 (finishErrFn msg) := rfl
    by_cases hid : id = id2
    · subst hid
      rw [lookupSession_eq, hs, lookupList_update_self,
        ← lookupSession_eq, h1] at h2
      cases h2
      simp [updateFn, finishOkFn, finishErrFn]
    · rw [lookupSession_eq, hs, lookupList_update_ne _ _ _ _ hid,
        ← lookupSession_eq, h1] at h2
      cases h2
      exact Nat.le_refl _
  | poll id2 =>
    rw [lookupSession_eq, stepSearch_poll_sessions, ← lookupSession_eq, h1] at h2
    cases h2
    exact Nat.le_refl _
  | elapse ms =>
    rw [lookup_elapse] at h2
    split at h2
    · exact absurd h2 (by simp)
    · rw [h1] at h2
      cases h2
      exact Nat.le_refl _

/-- One step never resurrects an absent session (re-`start` excluded). -/
theorem step_lookup_none {st : StoreState} {ev : SearchEvent} {id : String}
    (hev : ev ≠ .start id) (h : lookupSession st id = none) :
    lookupSession (stepSearch st ev) id = none := by
  cases ev with
  | start id2 =>
    have hne : id ≠ id2 := by
      intro heq
      exact hev (by rw [heq])
    have hs : (stepSearch st (.start id2)).sessions =
        setSession st.sessions id2 initSession := rfl
    rw [lookupSession_eq, hs, lookupList_set_ne _ _ _ _ hne, ← lookupSession_eq, h]
  | update id2 msg =>
    have hs : (stepSearch st (.update id2 msg)).sessions =
        updateSession st.sessions id2 (updateFn msg) := rfl
    by_cases hid : id = id2
    · subst hid
      rw [lookupSession_eq, hs, lookupList_update_self, ← lookupSession_eq, h]
      rfl
    · rw [lookupSession_eq, hs, lookupList_update_ne _ _ _ _ hid,
        ← lookupSession_eq, h]
  | finishOk id2 r =>
    have hs : (stepSearch st (.finishOk id2 r)).sessions =
        updateSession st.sessions id2 (finishOkFn r) := rfl
    by_cases hid : id = id2
    · subst hid
      rw [lookupSession_eq, hs, lookupList_update_self, ← lookupSession_eq, h]
      rfl
    · rw [lookupSession_eq, hs, lookupList_update_ne _ _ _ _ hid,
        ← lookupSession_eq, h]
  | finishErr id2 msg =>
    have hs : (stepSearch st (.finishErr id2 msg)).sessions =
        updateSession st.sessions id2 (finishErrFn msg) := rfl
    by_cases hid : id = id2
    · subst hid
      rw [lookupSession_eq, hs, lookupList_update_self, ← lookupSession_eq, h]
      rfl
    · rw [lookupSession_eq, hs, lookupList_update_ne _ _ _ _ hid,
        ← lookupSession_eq, h]
  | poll id2 =>
    rw [lookupSession_eq, stepSearch_poll_sessions, ← lookupSession_eq, h]
  | elapse ms =>
    rw [lookup_elapse]
    split
    · rfl
    · exact h

theorem run_lookup_none {evs : List SearchEvent} :
    ∀ {st : StoreState} {id : String}, SearchEvent.start id ∉ evs →
      lookupSession st id = none →
      lookupSession (runSearchStore st evs) id = none := by
  induction evs with
  | nil => intro st id _ h; exact h
  | cons ev evs ih =>
    intro st id hnot h
    have hev : ev ≠ .start id := fun he => hnot (he ▸ List.mem_cons_self _ _)
    have hnot' : SearchEvent.start id ∉ evs :=
      fun hm => hnot (List.mem_cons_of_mem _ hm)
    exact ih hnot' (step_lookup_none hev h)

/-- Along any event sequence that does not re-`start` the session, the
status log length of a session present before and after never
decreases. -/
theorem run_status_mono {evs : List SearchEvent} :
    ∀ {st : StoreState} {id : String} {s s' : SearchSession},
      SearchEvent.start id ∉ evs →
      lookupSession st id = some s →
      lookupSession (runSearchStore st evs) id = some s' →
      s.status.length ≤ s'.status.length := by
  induction evs with
  | nil =>
    intro st id s s' _ h1 h2
    rw [show runSearchStore st [] = st from rfl, h1] at h2
    cases h2
    exact Nat.le_refl _
  | cons ev evs ih =>
    intro st id s s' hnot h1 h2
    have hev : ev ≠ .start id := fun he => hnot (he ▸ List.mem_cons_self _ _)
    have hnot' : SearchEvent.start id ∉ evs :=
      fun hm => hnot (List.mem_cons_of_mem _ hm)
    have hrun : runSearchStore st (ev :: evs) =
        runSearchStore (stepSearch st ev) evs := rfl
    rw [hrun] at h2
    cases hmid : lookupSession (stepSearch st ev) id with
    | none => exact absurd h2 (by rw [run_lookup_none hnot' hmid]; simp)
    | some smid =>
      exact Nat.le_trans (step_status_mono hev h1 hmid) (ih hnot' hmid h2)

/-- A completed, never-polled session used in the C6 statements. -/
def emptyRes : LibGenSearchResult :=
  { books := [], total := 0, page := 1, limit := 25, mirrorStatus := [] }

/-- C6 counterexample: the session completes at time 0 and is polled for
the first time only after 40 s — more than the 30 s grace window — yet
the poll still finds it: the cleanup timer is armed by a status poll, not
by completion, so no eviction has been scheduled. -/
theorem late_first_poll_still_found :
    graceMs < 40000 ∧
    pollResponse (runSearchStore emptyStore
        [.start "s1", .finishOk "s1" emptyRes, .elapse 40000]) "s1" =
      .found ["Starting LibGen search...",
        "LibGen search completed successfully"] true (some emptyRes) none := by
  constructor
  · decide
  · decide

/-- C6 (amended): `startLibGenSearch` installs the fresh session
(`completed = false`) and hands the id back before any background event
runs; while a session survives (and is not re-started), its status log
length never decreases and a status poll reports exactly the current
snapshot; but eviction is armed only by a poll that observes the
completed session — such a poll returns the data and the session is gone
`graceMs` (30 s) later, whereas a session never polled after completion
is retained indefinitely (see the counterexample). -/
theorem session_lifecycle_amended :
    (∀ (st : StoreState) (id : String),
      lookupSession (stepSearch st (.start id)) id = some initSession ∧
      initSession.completed = false) ∧
    (∀ (evs : List SearchEvent) (st : StoreState) (id : String)
        (s s' : SearchSession), SearchEvent.start id ∉ evs →
      lookupSession st id = some s →
      lookupSession (runSearchStore st evs) id = some s' →
      s.status.length ≤ s'.status.length) ∧
    (∀ (st : StoreState) (id : String) (s : SearchSession),
      lookupSession st id = some s →
      pollResponse st id = .found s.status s.completed s.results s.error) ∧
    (∀ (id : String) (r : LibGenSearchResult) (d : Nat), graceMs ≤ d →
      pollResponse (runSearchStore emptyStore
          [.start id, .finishOk id r]) id =
        .found ["Starting LibGen search...",
          "LibGen search completed successfully"] true (some r) none ∧
      pollResponse (runSearchStore emptyStore
          [.start id, .finishOk id r, .poll id, .elapse d]) id = .notFound) := by
  refine ⟨?_, ?_, ?_, ?_⟩
  · intro st id
    exact ⟨lookupList_set_self st.sessions id initSession, rfl⟩
  · intro evs st id s s' hnot h1 h2
    exact run_status_mono hnot h1 h2
  · intro st id s h
    unfold pollResponse
    rw [h]
  · intro id r d hd
    have hd0 : (0 + graceMs ≤ 0 + d) = True := by
      simp only [Nat.zero_add]
      exact eq_true hd
    constructor
    · simp [runSearchStore, stepSearch, setSession, updateSession,
        lookupSession, lookupList, List.find?, pollResponse, emptyStore,
        initSession, finishOkFn]
    · have hdec : decide (30000 ≤ d) = true :=
        decide_eq_true (by simpa [graceMs] using hd)
      simp [runSearchStore, stepSearch, setSession, updateSession,
        lookupSession, lookupList, List.find?, pollResponse, emptyStore,
        initSession, finishOkFn, graceMs, hd0, List.filter, List.any,
        Nat.zero_add, hd, hdec]

/-- C6 amended witness: the start snapshot, a concrete two-event
monotonicity instance, a poll snapshot, and the poll-then-wait eviction
at exactly the grace bound. -/
theorem session_lifecycle_amended_witness :
    (lookupSession (stepSearch emptyStore (.start "w")) "w" =
        some initSession ∧ initSession.completed = false) ∧
    (SearchEvent.start "w" ∉
        [SearchEvent.update "w" "m1", SearchEvent.poll "w"] ∧
      initSession.status.length ≤
        (updateFn "m1" initSession).status.length) ∧
    (pollResponse (runSearchStore emptyStore
        [.start "w", .finishOk "w" emptyRes]) "w" =
      .found ["Starting LibGen search...",
        "LibGen search completed successfully"] true (some emptyRes) none ∧
     pollResponse (runSearchStore emptyStore
        [.start "w", .finishOk "w" emptyRes, .poll "w",
         .elapse 30000]) "w" = .notFound) :=
  ⟨session_lifecycle_amended.1 emptyStore "w",
   ⟨by decide,
    session_lifecycle_amended.2.1
      [SearchEvent.update "w" "m1", SearchEvent.poll "w"]
      (stepSearch emptyStore (.start "w")) "w" initSession
      (updateFn "m1" initSession) (by decide) (by decide) (by decide)⟩,
   session_lifecycle_amended.2.2.2 "w" emptyRes 30000 (by decide)⟩

end SCDoc
